import Mathlib

/-!
Verification development for the budget engine of `budget_app.py`.

The Python data layer is shallowly embedded: Python `float` amounts are
modelled as exact rationals (`ℚ`), `datetime.date` values as triples of
naturals, dictionaries as association lists, and fallible operations as
`Except String`.  Nondeterministic fresh `uuid4()` identifiers are passed
in as explicit parameters.  `str.lower` and `str.strip` are modelled on
their ASCII behaviour, which is sufficient for all inputs appearing in
the theorems below.
-/

set_option maxRecDepth 100000

namespace BudgetPy

/- Concrete evaluation (`decide`) must reduce rational arithmetic; the
library marks these operations irreducible only to keep `simp` away
from their definitions. -/
set_option allowUnsafeReducibility true

attribute [local semireducible] Rat.add Rat.mul Rat.inv Rat.sub Rat.ofScientific

instance {ε α : Type} [DecidableEq ε] [DecidableEq α] : DecidableEq (Except ε α) := fun a b =>
  match a, b with
  | .error e, .error f =>
      if h : e = f then .isTrue (by rw [h]) else .isFalse (by simp [h])
  | .ok x, .ok y =>
      if h : x = y then .isTrue (by rw [h]) else .isFalse (by simp [h])
  | .error _, .ok _ => .isFalse (by simp)
  | .ok _, .error _ => .isFalse (by simp)

/-- A calendar date, modelling `datetime.date` (year, month, day). -/
structure PDate where
  year : ℕ
  month : ℕ
  day : ℕ
deriving DecidableEq, Repr

/-- Gregorian leap-year test, as used by `datetime.date`. -/
def isLeap (y : ℕ) : Bool := y % 4 = 0 && (y % 100 ≠ 0 || y % 400 = 0)

/-- Number of days in a month of a given year (`datetime.date` validity). -/
def daysInMonth (y m : ℕ) : ℕ :=
  if m = 2 then (if isLeap y then 29 else 28)
  else if m = 4 ∨ m = 6 ∨ m = 9 ∨ m = 11 then 30
  else 31

/-- Range check performed by the `datetime.date` constructor
(`MINYEAR = 1`, `MAXYEAR = 9999`, month and day in range). -/
def dateOk (y m d : ℕ) : Bool :=
  1 ≤ y && y ≤ 9999 && 1 ≤ m && m ≤ 12 && 1 ≤ d && d ≤ daysInMonth y m

/-- A `PDate` representable as a Python `datetime.date`. -/
def PDate.Valid (d : PDate) : Prop := dateOk d.year d.month d.day = true

instance (d : PDate) : Decidable d.Valid :=
  inferInstanceAs (Decidable (dateOk d.year d.month d.day = true))

/-- Numeric value of a decimal digit character. -/
def digVal (c : Char) : ℕ := c.toNat - 48

/-- `strptime` fragment `\d\d\d\d` (the `%Y` directive): exactly four
decimal digits. -/
def digits4 : List Char → Option (ℕ × List Char)
  | a :: b :: c :: d :: r =>
      if a.isDigit && b.isDigit && c.isDigit && d.isDigit then
        some (1000 * digVal a + 100 * digVal b + 10 * digVal c + digVal d, r)
      else none
  | _ => none

/-- Two-digit alternatives of the `%m` directive regex `1[0-2]|0[1-9]`. -/
def month2 : List Char → Option (ℕ × List Char)
  | a :: b :: r =>
      if a = '1' && ('0' ≤ b && b ≤ '2') then some (10 + digVal b, r)
      else if a = '0' && ('1' ≤ b && b ≤ '9') then some (digVal b, r)
      else none
  | _ => none

/-- The final `[1-9]` alternative shared by the `%m` and `%d` regexes. -/
def dig1 : List Char → Option (ℕ × List Char)
  | c :: r => if '1' ≤ c && c ≤ '9' then some (digVal c, r) else none
  | [] => none

/-- Two-digit alternatives of the `%d` directive regex
`3[01]|[12]\d|0[1-9]`. -/
def day2 : List Char → Option (ℕ × List Char)
  | a :: b :: r =>
      if a = '3' && ('0' ≤ b && b ≤ '1') then some (30 + digVal b, r)
      else if ('1' ≤ a && a ≤ '2') && b.isDigit then
        some (10 * digVal a + digVal b, r)
      else if a = '0' && ('1' ≤ b && b ≤ '9') then some (digVal b, r)
      else none
  | _ => none

/-- Candidate matches of `%m`, in regex alternation order. -/
def monthCands (cs : List Char) : List (ℕ × List Char) :=
  (month2 cs).toList ++ (dig1 cs).toList

/-- Candidate matches of `%d`, in regex alternation order. -/
def dayCands (cs : List Char) : List (ℕ × List Char) :=
  (day2 cs).toList ++ (dig1 cs).toList

/-- Full match of `%Y sep %m sep %d` against the whole input, returning
the first match in the regex backtracking order. -/
def ymdScan (sep : Char) (cs : List Char) : Option (ℕ × ℕ × ℕ) :=
  match digits4 cs with
  | some (y, c1 :: r1) =>
      if c1 = sep then
        (monthCands r1).findSome? (fun mr =>
          match mr.2 with
          | c2 :: r2 =>
              if c2 = sep then
                (dayCands r2).findSome? (fun dr =>
                  if dr.2 = [] then some (y, mr.1, dr.1) else none)
              else none
          | [] => none)
      else none
  | _ => none

/-- Full match of `%d sep %m sep %Y` against the whole input, returning
the first match in the regex backtracking order. -/
def dmyScan (sep : Char) (cs : List Char) : Option (ℕ × ℕ × ℕ) :=
  (dayCands cs).findSome? (fun dr =>
    match dr.2 with
    | c1 :: r1 =>
        if c1 = sep then
          (monthCands r1).findSome? (fun mr =>
            match mr.2 with
            | c2 :: r2 =>
                if c2 = sep then
                  match digits4 r2 with
                  | some (y, []) => some (y, mr.1, dr.1)
                  | _ => none
                else none
            | [] => none)
        else none
    | [] => none)

/-- `datetime.strptime(value, "%Y<sep>%m<sep>%d").date()`: regex match,
then `date` construction which may reject the matched numbers. -/
def tryFmtYmd (sep : Char) (cs : List Char) : Option PDate :=
  match ymdScan sep cs with
  | some (y, m, d) => if dateOk y m d then some ⟨y, m, d⟩ else none
  | none => none

/-- `datetime.strptime(value, "%d<sep>%m<sep>%Y").date()`. -/
def tryFmtDmy (sep : Char) (cs : List Char) : Option PDate :=
  match dmyScan sep cs with
  | some (y, m, d) => if dateOk y m d then some ⟨y, m, d⟩ else none
  | none => none

/-- `str.strip()` (ASCII whitespace). -/
def pyStrip (s : String) : String :=
  String.mk (((s.data.dropWhile Char.isWhitespace).reverse.dropWhile
    Char.isWhitespace).reverse)

/-- The single-quote character. -/
def qChar : Char := Char.ofNat 39

/-- The backslash character. -/
def bsChar : Char := Char.ofNat 92

/-- The double-quote character. -/
def dqChar : Char := Char.ofNat 34

/-- Lower-case hexadecimal digit. -/
def hexDig (n : ℕ) : Char := if n < 10 then Char.ofNat (48 + n) else Char.ofNat (87 + n)

/-- Escaping of one character inside a Python string `repr` quoted with
`q` (ASCII fragment of CPython's behaviour). -/
def escChar (q : Char) (c : Char) : List Char :=
  if c = bsChar then [bsChar, bsChar]
  else if c = q then [bsChar, q]
  else if c = Char.ofNat 10 then [bsChar, 'n']
  else if c = Char.ofNat 13 then [bsChar, 'r']
  else if c = Char.ofNat 9 then [bsChar, 't']
  else if c.toNat < 32 || c.toNat = 127 then
    [bsChar, 'x', hexDig (c.toNat / 16), hexDig (c.toNat % 16)]
  else [c]

/-- Python `repr` of a string (as used by the `!r` format spec): prefers
single quotes, switching to double quotes when the text contains a
single quote but no double quote. -/
def pyRepr (s : String) : String :=
  let q := if s.data.contains qChar && !(s.data.contains dqChar) then dqChar else qChar
  String.mk (q :: ((s.data.map (escChar q)).flatten ++ [q]))

/-- Error text raised by `parse_date` for an unparseable (stripped) value. -/
def dateErrMsg (v : String) : String :=
  "Date invalide : " ++ pyRepr v ++ ". Utilisez AAAA-MM-JJ."

/-- `parse_date` from `budget_app.py`: strips the input, tries the formats
`%Y-%m-%d`, `%d/%m/%Y`, `%d-%m-%Y`, `%Y/%m/%d` in order, and raises
`ValueError` with a message naming the stripped value when all fail. -/
def parse_date (input : String) : Except String PDate :=
  let v := pyStrip input
  match tryFmtYmd '-' v.data <|> tryFmtDmy '/' v.data <|> tryFmtDmy '-' v.data
      <|> tryFmtYmd '/' v.data with
  | some d => .ok d
  | none => .error (dateErrMsg v)

example : parse_date "2024-12-05" = .ok ⟨2024, 12, 5⟩ := by decide
example : parse_date " 5/3/2024 " = .ok ⟨2024, 3, 5⟩ := by decide
example : parse_date "31-01-1999" = .ok ⟨1999, 1, 31⟩ := by decide
example : parse_date "1999/2/28" = .ok ⟨1999, 2, 28⟩ := by decide
example : parse_date "2023-02-29" = .error (dateErrMsg "2023-02-29") := by decide
example : parse_date "2024-02-29" = .ok ⟨2024, 2, 29⟩ := by decide
example : parse_date "0005-01-01" = .ok ⟨5, 1, 1⟩ := by decide
example : parse_date "5-01-01" = .error (dateErrMsg "5-01-01") := by decide

/-- Decimal digit character for `n % 10`. -/
def digitChar (n : ℕ) : Char := Char.ofNat (48 + n % 10)

/-- Decimal digits of a natural number (fuel-based helper). -/
def natToDigitsAux : ℕ → ℕ → List Char
  | 0, _ => []
  | fuel + 1, n =>
      if n < 10 then [digitChar n]
      else natToDigitsAux fuel (n / 10) ++ [digitChar (n % 10)]

/-- Decimal digits of a natural number, most significant first, no
leading zeros (Python's rendering of a non-negative integer). -/
def natToDigits (n : ℕ) : List Char := natToDigitsAux (n + 1) n

/-- Two-digit zero-padded rendering (`%02d`, as in `%m` / `%d` output). -/
def pad2 (n : ℕ) : List Char := [digitChar (n / 10), digitChar n]

/-- Four-digit zero-padded rendering (`%04d`, as in `date.isoformat`). -/
def pad4 (n : ℕ) : List Char :=
  [digitChar (n / 1000), digitChar (n / 100), digitChar (n / 10), digitChar n]

/-- `date.isoformat()`: `YYYY-MM-DD`, always zero-padded. -/
def isoformat (d : PDate) : String :=
  String.mk (pad4 d.year ++ '-' :: pad2 d.month ++ '-' :: pad2 d.day)

/-- `date.strftime("%Y-%m-%d")` as rendered by glibc: `%m`/`%d` are
zero-padded to two digits but `%Y` prints the year without padding. -/
def strftimeYmd (d : PDate) : String :=
  String.mk (natToDigits d.year ++ '-' :: pad2 d.month ++ '-' :: pad2 d.day)

/-- `month_key` from `budget_app.py`: `value.strftime("%Y-%m")`. -/
def month_key (d : PDate) : String :=
  String.mk (natToDigits d.year ++ '-' :: pad2 d.month)

/-- Natural-number value of a list of digit characters. -/
def readNat (cs : List Char) : ℕ := cs.foldl (fun a c => 10 * a + digVal c) 0

/-- `10^e` for an integer exponent. -/
def pow10z (e : ℤ) : ℚ :=
  if 0 ≤ e then (10 : ℚ) ^ e.toNat else 1 / (10 : ℚ) ^ (-e).toNat

/-- Exponent suffix of a Python float literal: empty, or `[eE][+-]?digits`. -/
def parseExp : List Char → Option ℤ
  | [] => some 0
  | c :: rest =>
      if c = 'e' ∨ c = 'E' then
        match rest with
        | '+' :: ds =>
            if ds ≠ [] ∧ ds.all Char.isDigit then some (readNat ds : ℤ) else none
        | '-' :: ds =>
            if ds ≠ [] ∧ ds.all Char.isDigit then some (-(readNat ds : ℤ)) else none
        | ds => if ds ≠ [] ∧ ds.all Char.isDigit then some (readNat ds : ℤ) else none
      else none

/-- Unsigned part of a Python float literal: `digits[.digits][exp]`,
`.digits[exp]` or `digits.[exp]`. -/
def pyFloatCore (cs : List Char) : Option ℚ :=
  let ip := cs.takeWhile Char.isDigit
  let r1 := cs.dropWhile Char.isDigit
  match r1 with
  | c :: r2 =>
      if c = '.' then
        let fp := r2.takeWhile Char.isDigit
        let r3 := r2.dropWhile Char.isDigit
        if ip = [] ∧ fp = [] then none
        else (parseExp r3).map (fun e =>
          ((readNat ip : ℚ) + (readNat fp : ℚ) / 10 ^ fp.length) * pow10z e)
      else if ip = [] then none
      else (parseExp (c :: r2)).map (fun e => (readNat ip : ℚ) * pow10z e)
  | [] =>
      if ip = [] then none
      else (parseExp []).map (fun e => (readNat ip : ℚ) * pow10z e)

/-- Python `float(str)` on finite decimal literals: strip, optional sign,
mantissa and optional exponent.  (`inf`/`nan` and digit-group
underscores are outside the rational model.) -/
def pyFloat (s : String) : Option ℚ :=
  match (pyStrip s).data with
  | [] => none
  | c :: r =>
      if c = '+' then pyFloatCore r
      else if c = '-' then (pyFloatCore r).map (fun q => -q)
      else pyFloatCore (c :: r)

/-- Count and strip factors `p` from `n` (fuel-based). -/
def stripCnt (p : ℕ) : ℕ → ℕ → ℕ × ℕ
  | 0, n => (0, n)
  | fuel + 1, n =>
      if 2 ≤ p ∧ n ≠ 0 ∧ n % p = 0 then
        let r := stripCnt p fuel (n / p)
        (r.1 + 1, r.2)
      else (0, n)

/-- Smallest `k` with `den ∣ 10^k`, when one exists. -/
def decExp (den : ℕ) : Option ℕ :=
  let a := stripCnt 2 den den
  let b := stripCnt 5 a.2 a.2
  if b.2 = 1 then some (max a.1 b.1) else none

/-- Python `str()` of a float, in the rational model: the exact decimal
expansion when it terminates (Python floats always have one; the
17-digit truncation fallback is unreachable from float-valued inputs).
Always of the shape `[-]digits.digits`, hence re-parseable by
`pyFloat`; scientific notation for extreme magnitudes is not modelled. -/
def floatRepr (q : ℚ) : String :=
  let k := match decExp q.den with | some k => k | none => 17
  let scaled : ℕ := q.num.natAbs * 10 ^ k / q.den
  let ip := scaled / 10 ^ k
  let fr := scaled % 10 ^ k
  let frDigits := List.replicate (k - (natToDigits fr).length) '0' ++ natToDigits fr
  String.mk ((if q < 0 then ['-'] else []) ++ natToDigits ip ++ '.' :: frDigits)

/-- Round half-to-even to an integer (Python `round` tie behaviour). -/
def roundHalfEven (x : ℚ) : ℤ :=
  let n := ⌊x⌋
  let r := x - n
  if r < 1 / 2 then n
  else if 1 / 2 < r then n + 1
  else if Even n then n else n + 1

/-- Python `round(x, 2)` in the rational model. -/
def round2 (q : ℚ) : ℚ := (roundHalfEven (q * 100) : ℚ) / 100

example : pyFloat "-900.0" = some (-900) := by decide
example : pyFloat " 3.25 " = some (13 / 4) := by decide
example : pyFloat "1e-2" = some (1 / 100) := by decide
example : pyFloat "+.5" = some (1 / 2) := by decide
example : pyFloat "5." = some 5 := by decide
example : pyFloat "abc" = none := by decide
example : pyFloat "" = none := by decide
example : pyFloat "1-2" = none := by decide
example : floatRepr (-(441 : ℚ) / 2) = "-220.5" := by decide
example : floatRepr 3200 = "3200.0" := by decide
example : floatRepr (1 / 100 : ℚ) = "0.01" := by decide
example : round2 (1 / 8 : ℚ) = 12 / 100 := by decide
example : round2 (3 / 8 : ℚ) = 38 / 100 := by decide

/-- A Python value as stored in the plain-object (JSON-like) documents:
a string or a (float) number. -/
inductive PyVal where
  | str (s : String)
  | num (q : ℚ)
deriving DecidableEq

/-- A Python dict with string keys, as an association list. -/
abbrev PyDict := List (String × PyVal)

/-- `dict.get(k)`: value of the first (only) binding, if present. -/
def dictGet (d : PyDict) (k : String) : Option PyVal :=
  (d.find? (fun p => p.1 == k)).map (·.2)

/-- `dict.get(k, default)`. -/
def dictGetD (d : PyDict) (k : String) (v : PyVal) : PyVal := (dictGet d k).getD v

/-- Python truthiness of a value (`""` and `0.0` are falsy). -/
def pyTruthy : PyVal → Bool
  | .str s => if s = "" then false else true
  | .num q => if q = 0 then false else true

/-- Python `str()` of a value. -/
def pyStr : PyVal → String
  | .str s => s
  | .num q => floatRepr q

/-- Python `float()` of a value: numbers pass through, strings are
parsed, anything unparseable raises `ValueError`. -/
def pyFloatOf : PyVal → Except String ℚ
  | .num q => .ok q
  | .str s =>
      match pyFloat s with
      | some q => .ok q
      | none => .error ("could not convert string to float: " ++ pyRepr s)

/-- `str.lower()` (ASCII case mapping; the case-insensitive sort keys
and type tags compared in the engine are ASCII). -/
def pyLower (s : String) : String := String.mk (s.data.map Char.toLower)

/-- Lexicographic comparison of character lists by code point: the
order Python uses for `str` comparison. -/
def charListLe : List Char → List Char → Bool
  | [], _ => true
  | _ :: _, [] => false
  | a :: as, b :: bs =>
      if a.toNat < b.toNat then true
      else if b.toNat < a.toNat then false
      else charListLe as bs

/-- Python string `<=`. -/
def strLeB (a b : String) : Bool := charListLe a.data b.data

/-- Stable insertion of `a` into `l` in front of the first element `b`
with `le a b` (the placement a stable ascending sort gives). -/
def ordInsert (le : α → α → Bool) (a : α) : List α → List α
  | [] => [a]
  | b :: l => if le a b then a :: b :: l else b :: ordInsert le a l

/-- Stable insertion sort with a boolean comparator; on a total
preorder it computes the same list as Python's stable `list.sort`. -/
def isortB (le : α → α → Bool) : List α → List α
  | [] => []
  | b :: l => ordInsert le b (isortB le l)

/-- The `Transaction` dataclass. -/
structure Transaction where
  id : String
  date : PDate
  description : String
  category : String
  amount : ℚ
  type : String
  notes : String
deriving DecidableEq

/-- `Transaction.signed_amount`:
`self.amount if self.type == "income" else -abs(self.amount)`. -/
def Transaction.signed_amount (t : Transaction) : ℚ :=
  if t.type = "income" then t.amount else -|t.amount|

/-- `Transaction.from_dict`.  `fresh` stands for the `uuid4()` value used
when the `id` key is absent or falsy; `data["date"]` raises on a missing
key; the amount is `float(data.get("amount", 0.0))`, with no absolute
value taken. -/
def Transaction.from_dict (fresh : String) (data : PyDict) : Except String Transaction :=
  match dictGet data "date" with
  | none => .error "KeyError: date"
  | some dv =>
      match parse_date (pyStr dv) with
      | .error e => .error e
      | .ok dt =>
          match pyFloatOf (dictGetD data "amount" (.num 0)) with
          | .error e => .error e
          | .ok amt => .ok {
              id := match dictGet data "id" with
                | some v => if pyTruthy v then pyStr v else fresh
                | none => fresh,
              date := dt,
              description := pyStr (dictGetD data "description" (.str "")),
              category := pyStr (dictGetD data "category" (.str "Autre")),
              amount := amt,
              type := pyStr (dictGetD data "type" (.str "expense")),
              notes := pyStr (dictGetD data "notes" (.str "")) }

/-- `Transaction.to_dict`: the date as `isoformat`, the amount rounded
to two decimals. -/
def Transaction.to_dict (t : Transaction) : PyDict :=
  [("id", .str t.id), ("date", .str (isoformat t.date)),
   ("description", .str t.description), ("category", .str t.category),
   ("amount", .num (round2 t.amount)), ("type", .str t.type),
   ("notes", .str t.notes)]

/-- The `Budget` dataclass. -/
structure Budget where
  id : String
  category : String
  monthly_limit : ℚ
deriving DecidableEq

/-- `Budget.from_dict`: the limit is
`float(data.get("monthly_limit", data.get("limit", 0.0)))`. -/
def Budget.from_dict (fresh : String) (data : PyDict) : Except String Budget :=
  match pyFloatOf (match dictGet data "monthly_limit" with
      | some v => v
      | none => dictGetD data "limit" (.num 0)) with
  | .error e => .error e
  | .ok q => .ok {
      id := match dictGet data "id" with
        | some v => if pyTruthy v then pyStr v else fresh
        | none => fresh,
      category := pyStr (dictGetD data "category" (.str "Autre")),
      monthly_limit := q }

/-- `Budget.to_dict`. -/
def Budget.to_dict (b : Budget) : PyDict :=
  [("id", .str b.id), ("category", .str b.category),
   ("monthly_limit", .num (round2 b.monthly_limit))]

/-- The in-memory `BudgetData` state (the storage path is an I/O concern
and is not part of the model). -/
structure Store where
  transactions : List Transaction
  budgets : List Budget
deriving DecidableEq

/-- Strict lexicographic comparison of dates, as Python compares
`date` objects. -/
def dateLtB (a b : PDate) : Bool :=
  if a.year < b.year then true
  else if b.year < a.year then false
  else if a.month < b.month then true
  else if b.month < a.month then false
  else decide (a.day < b.day)

/-- The sort key `lambda t: (t.date, t.description)` of the transaction
list as a total preorder (Python tuple comparison). -/
def trxLeB (a b : Transaction) : Bool :=
  dateLtB a.date b.date || (a.date == b.date && strLeB a.description b.description)

/-- The budget sort key `lambda b: b.category.lower()` as a total
preorder. -/
def budLeB (a b : Budget) : Bool := strLeB (pyLower a.category) (pyLower b.category)

/-- `BudgetData.get_transaction`: first transaction with the given id. -/
def get_transaction (s : Store) (trx_id : String) : Option Transaction :=
  s.transactions.find? (fun t => t.id == trx_id)

/-- `BudgetData.add_transaction`: build the record (category defaulted
when blank, amount made absolute), append, and stably re-sort by
`(date, description)`.  `fresh` is the generated `uuid4()` id. -/
def add_transaction (fresh : String) (s : Store) (date_value : PDate)
    (description : String) (category : String) (amount : ℚ) (type_ : String)
    (notes : String) : Store × Transaction :=
  let trx : Transaction := {
    id := fresh, date := date_value, description := description,
    category := if category = "" then "Autre" else category,
    amount := |amount|, type := type_, notes := notes }
  ({ s with transactions := isortB trxLeB (s.transactions ++ [trx]) }, trx)

/-- `BudgetData.delete_transaction`: filter by id, keeping everything
else unchanged. -/
def delete_transaction (s : Store) (trx_id : String) : Store :=
  { s with transactions := s.transactions.filter (fun t => !(t.id == trx_id)) }

/-- `BudgetData.get_budget`. -/
def get_budget (s : Store) (budget_id : String) : Option Budget :=
  s.budgets.find? (fun b => b.id == budget_id)

/-- `BudgetData.add_budget`. -/
def add_budget (fresh : String) (s : Store) (category : String)
    (monthly_limit : ℚ) : Store × Budget :=
  let budget : Budget := {
    id := fresh, category := if category = "" then "Autre" else category,
    monthly_limit := |monthly_limit| }
  ({ s with budgets := isortB budLeB (s.budgets ++ [budget]) }, budget)

/-- Replace the first element satisfying `p` (Python mutates the object
returned by the `get_*` lookup, which is the first match). -/
def replaceFirst (l : List α) (p : α → Bool) (f : α → α) : List α :=
  match l with
  | [] => []
  | x :: xs => if p x then f x :: xs else x :: replaceFirst xs p f

/-- `BudgetData.update_budget`: `KeyError` when the id is absent,
otherwise patch the supplied fields in place (no re-sort). -/
def update_budget (s : Store) (budget_id : String) (category : Option String)
    (monthly_limit : Option ℚ) : Except String Store :=
  match get_budget s budget_id with
  | none => .error ("Budget " ++ budget_id ++ " introuvable")
  | some _ => .ok { s with budgets := (replaceFirst s.budgets (fun b => b.id == budget_id)
      (fun b => { b with
        category := match category with | some c => c | none => b.category,
        monthly_limit := match monthly_limit with
          | some m => |m|
          | none => b.monthly_limit })) }

/-- A value supplied in the keyword arguments of `update_transaction`:
either a `datetime.date` object or an ordinary value. -/
inductive UpdVal where
  | pydate (d : PDate)
  | pv (v : PyVal)
deriving DecidableEq

/-- Truthiness of an update value (a `date` object is always truthy). -/
def updTruthy : UpdVal → Bool
  | .pydate _ => true
  | .pv v => pyTruthy v

/-- The open keyword-argument set accepted by `update_transaction`. -/
structure TrxUpdates where
  date : Option UpdVal
  date_value : Option UpdVal
  description : Option PyVal
  category : Option PyVal
  amount : Option PyVal
  type : Option PyVal
  type_ : Option PyVal
  notes : Option PyVal
deriving DecidableEq

/-- An empty keyword-argument set. -/
def TrxUpdates.none_ : TrxUpdates :=
  { date := none, date_value := none, description := none, category := none,
    amount := none, type := none, type_ := none, notes := none }

/-- The date-patching step of `update_transaction`:
`value = updates.get("date") or updates.get("date_value")`, then either
assign the `date` object or `parse_date(str(value))`. -/
def applyDateUpd (trx : Transaction) (u : TrxUpdates) : Except String Transaction :=
  if u.date.isSome ∨ u.date_value.isSome then
    let value : Option UpdVal :=
      match u.date with
      | some x => if updTruthy x then some x else u.date_value
      | none => u.date_value
    match value with
    | some (.pydate d) => .ok { trx with date := d }
    | some (.pv v) =>
        match parse_date (pyStr v) with
        | .ok d => .ok { trx with date := d }
        | .error e => .error e
    | none =>
        match parse_date "None" with
        | .ok d => .ok { trx with date := d }
        | .error e => .error e
  else .ok trx

/-- The field-patching sequence of `update_transaction` on the looked-up
transaction.  (Python mutates the record field by field, so a failure
part-way leaves earlier fields assigned; only the success path, where
this difference is invisible, is used by the theorems below.) -/
def applyUpdates (trx : Transaction) (u : TrxUpdates) : Except String Transaction :=
  match applyDateUpd trx u with
  | .error e => .error e
  | .ok t1 =>
      let t2 := match u.description with
        | some v => { t1 with description := pyStr v }
        | none => t1
      let t3 := match u.category with
        | some v => { t2 with category := pyStr v }
        | none => t2
      match (match u.amount with
        | some v => (pyFloatOf v).map (fun q => { t3 with amount := |q| })
        | none => .ok t3) with
      | .error e => .error e
      | .ok t4 =>
          let t5 := if u.type.isSome ∨ u.type_.isSome then
              let chosen : Option PyVal := match u.type with
                | some x => if pyTruthy x then some x else u.type_
                | none => u.type_
              { t4 with type := match chosen with | some v => pyStr v | none => "None" }
            else t4
          .ok (match u.notes with
            | some v => { t5 with notes := pyStr v }
            | none => t5)

/-- `BudgetData.update_transaction`: `KeyError` when the id is absent;
otherwise patch only the supplied fields of the first matching record.
No re-sort happens afterwards. -/
def update_transaction (s : Store) (trx_id : String) (u : TrxUpdates) :
    Except String Store :=
  match get_transaction s trx_id with
  | none => .error ("Transaction " ++ trx_id ++ " introuvable")
  | some trx =>
      match applyUpdates trx u with
      | .ok t2 => .ok { s with
          transactions := replaceFirst s.transactions (fun t => t.id == trx_id) (fun _ => t2) }
      | .error e => .error e

/-- `BudgetData.transactions_for_month`: `if not month` treats both
`None` and the empty string as "no filter". -/
def transactions_for_month (s : Store) (month : Option String) : List Transaction :=
  match month with
  | none => s.transactions
  | some m =>
      if m = "" then s.transactions
      else s.transactions.filter (fun t => month_key t.date == m)

/-- Result of `BudgetData.monthly_summary`. -/
structure Summary where
  incomes : ℚ
  expenses : ℚ
  balance : ℚ
deriving DecidableEq

/-- `BudgetData.monthly_summary`. -/
def monthly_summary (s : Store) (month : Option String) : Summary :=
  let items := transactions_for_month s month
  { incomes := ((items.filter (fun t => t.type == "income")).map Transaction.amount).sum,
    expenses := ((items.filter (fun t => t.type == "expense")).map Transaction.amount).sum,
    balance := (items.map Transaction.signed_amount).sum }

/-- `totals[key] = totals.get(key, 0.0) + v` on a dict kept as an
association list in insertion order. -/
def updAssoc (l : List (String × ℚ)) (k : String) (v : ℚ) : List (String × ℚ) :=
  match l with
  | [] => [(k, v)]
  | (k0, v0) :: rest =>
      if k0 = k then (k0, v0 + v) :: rest else (k0, v0) :: updAssoc rest k v

/-- Loop body of `category_totals`: skip transactions of the other
type, otherwise `totals[category] += abs(signed_amount)`. -/
def catStep (for_expenses : Bool) (totals : List (String × ℚ)) (trx : Transaction) :
    List (String × ℚ) :=
  if for_expenses then
    if trx.type = "expense" then updAssoc totals trx.category |trx.signed_amount|
    else totals
  else
    if trx.type = "income" then updAssoc totals trx.category |trx.signed_amount|
    else totals

/-- `BudgetData.category_totals`: per-category sums of
`abs(signed_amount)` over the scoped transactions of one type. -/
def category_totals (s : Store) (month : Option String) (for_expenses : Bool) :
    List (String × ℚ) :=
  (transactions_for_month s month).foldl (catStep for_expenses) []

/-- `totals.get(category, 0.0)`. -/
def totalsGet (l : List (String × ℚ)) (k : String) : ℚ :=
  match l.find? (fun p => p.1 == k) with
  | some p => p.2
  | none => 0

/-- One row of `BudgetData.budget_analysis`. -/
structure AnalysisRow where
  budget : Budget
  spent : ℚ
  remaining : ℚ
  ratio : ℚ
deriving DecidableEq

/-- The analysis sort key `lambda item: item["budget"].category.lower()`. -/
def rowLeB (a b : AnalysisRow) : Bool :=
  strLeB (pyLower a.budget.category) (pyLower b.budget.category)

/-- `BudgetData.budget_analysis`. -/
def budget_analysis (s : Store) (month : Option String) : List AnalysisRow :=
  let totals := category_totals s month true
  isortB rowLeB (s.budgets.map (fun b =>
    let spent := totalsGet totals b.category
    { budget := b, spent := spent, remaining := b.monthly_limit - spent,
      ratio := if b.monthly_limit = 0 then 0 else min 1 (spent / b.monthly_limit) }))

/-- One CSV record as produced by `csv.DictReader`: header-keyed string
fields (a missing column means an absent key). -/
abbrev CsvRow := List (String × String)

/-- `row.get(k)`. -/
def rowGet (r : CsvRow) (k : String) : Option String :=
  (r.find? (fun p => p.1 == k)).map (·.2)

/-- `row.get(k1, row.get(k2, dflt))`. -/
def rowGet2 (r : CsvRow) (k1 k2 dflt : String) : String :=
  match rowGet r k1 with
  | some v => v
  | none =>
      match rowGet r k2 with
      | some v => v
      | none => dflt

/-- `float(row.get("Montant", row.get("amount", 0)))`: the literal `0`
default needs no parsing. -/
def rowAmount (r : CsvRow) : Option ℚ :=
  match rowGet r "Montant" with
  | some v => pyFloat v
  | none =>
      match rowGet r "amount" with
      | some v => pyFloat v
      | none => some 0

/-- The fields read inside the `try` block of `import_csv`; `none` when
date or amount parsing raises (the row is then skipped). -/
structure CsvParsed where
  date : PDate
  description : String
  category : String
  amount : ℚ
deriving DecidableEq

/-- Parse one CSV row as `import_csv` does. -/
def parseCsvRow (r : CsvRow) : Option CsvParsed :=
  match (parse_date (rowGet2 r "Date" "date" "")).toOption, rowAmount r with
  | some d, some a => some {
      date := d,
      description := rowGet2 r "Description" "description" "",
      category := rowGet2 r "Catégorie" "category" "Autre",
      amount := a }
  | _, _ => none

/-- The type tag chosen by `import_csv`: the lowercased column value
when recognized, else by sign of the amount.  A missing column defaults
to `"expense"`, which is recognized, so the sign rule never fires then. -/
def csvType (r : CsvRow) (amount : ℚ) : String :=
  let t := pyLower (rowGet2 r "Type" "type" "expense")
  if t = "income" ∨ t = "expense" then t
  else if 0 ≤ amount then "income" else "expense"

/-- The description fallback `"(sans libellé)"` for blank descriptions. -/
def csvDescription (d : String) : String := if d = "" then "(sans libellé)" else d

/-- The row loop of `import_csv`: skip unparseable rows, push accepted
rows through `add_transaction`, and count them.  `freshIds n` is the
`uuid4()` id of the `n`-th accepted row. -/
def importCsvGo (freshIds : ℕ → String) : List CsvRow → Store → ℕ → Store × ℕ
  | [], s, added => (s, added)
  | r :: rest, s, added =>
      match parseCsvRow r with
      | none => importCsvGo freshIds rest s added
      | some p =>
          importCsvGo freshIds rest
            (add_transaction (freshIds added) s p.date (csvDescription p.description)
              p.category |p.amount| (csvType r p.amount) "").1
            (added + 1)

/-- `BudgetData.import_csv`, over the list of records of the file. -/
def import_csv (freshIds : ℕ → String) (s : Store) (rows : List CsvRow) : Store × ℕ :=
  importCsvGo freshIds rows s 0

/-- The record written by `export_csv` for one transaction: the date via
`strftime("%Y-%m-%d")`, the amount as the signed value rendered by
`str`, and a type tag normalized to `income`/`expense`. -/
def exportRow (t : Transaction) : CsvRow :=
  [("Date", strftimeYmd t.date), ("Description", t.description),
   ("Catégorie", t.category), ("Montant", floatRepr t.signed_amount),
   ("Type", if t.type = "income" then "income" else "expense"),
   ("Notes", t.notes)]

/-- `BudgetData.export_csv`, as the list of records written. -/
def export_csv (s : Store) : List CsvRow := s.transactions.map exportRow

/-! ### Sorting lemmas -/

theorem mem_ordInsert {le : α → α → Bool} {x a : α} :
    ∀ {l : List α}, x ∈ ordInsert le a l ↔ x = a ∨ x ∈ l := by
  intro l
  induction l with
  | nil => simp [ordInsert]
  | cons b t ih =>
      by_cases h : le a b
      · simp [ordInsert, h]
      · simp only [ordInsert, h, Bool.false_eq_true, if_false, List.mem_cons, ih]
        tauto

theorem ordInsert_perm (le : α → α → Bool) (a : α) :
    ∀ l : List α, (ordInsert le a l).Perm (a :: l) := by
  intro l
  induction l with
  | nil => simp [ordInsert]
  | cons b t ih =>
      by_cases h : le a b
      · simp [ordInsert, h]
      · simp only [ordInsert, h, Bool.false_eq_true, if_false]
        exact (ih.cons b).trans (List.Perm.swap a b t)

theorem isortB_perm (le : α → α → Bool) :
    ∀ l : List α, (isortB le l).Perm l := by
  intro l
  induction l with
  | nil => simp [isortB]
  | cons b t ih => exact ((ordInsert_perm le b _).trans (ih.cons b))

theorem mem_isortB {le : α → α → Bool} {x : α} {l : List α} :
    x ∈ isortB le l ↔ x ∈ l := (isortB_perm le l).mem_iff

theorem pairwise_ordInsert {le : α → α → Bool}
    (htot : ∀ x y, le x y = true ∨ le y x = true)
    (htrans : ∀ x y z, le x y = true → le y z = true → le x z = true) (a : α) :
    ∀ l : List α, l.Pairwise (fun x y => le x y = true) →
      (ordInsert le a l).Pairwise (fun x y => le x y = true) := by
  intro l
  induction l with
  | nil => simp [ordInsert]
  | cons b t ih =>
      intro h
      rcases List.pairwise_cons.mp h with ⟨hb, ht⟩
      by_cases hab : le a b = true
      · simp only [ordInsert, hab, if_true]
        refine List.pairwise_cons.mpr ⟨?_, h⟩
        intro x hx
        rcases List.mem_cons.mp hx with rfl | hx
        · exact hab
        · exact htrans a b x hab (hb x hx)
      · simp only [ordInsert, hab, Bool.false_eq_true, if_false]
        refine List.pairwise_cons.mpr ⟨?_, ih ht⟩
        intro x hx
        rcases mem_ordInsert.mp hx with rfl | hx
        · exact (htot x b).resolve_left hab
        · exact hb x hx

theorem pairwise_isortB {le : α → α → Bool}
    (htot : ∀ x y, le x y = true ∨ le y x = true)
    (htrans : ∀ x y z, le x y = true → le y z = true → le x z = true) :
    ∀ l : List α, (isortB le l).Pairwise (fun x y => le x y = true) := by
  intro l
  induction l with
  | nil => simp [isortB]
  | cons b t ih => exact pairwise_ordInsert htot htrans b _ ih

theorem charListLe_cons {a b : Char} {as bs : List Char} :
    charListLe (a :: as) (b :: bs) = true ↔
      (a.toNat < b.toNat ∨ (a.toNat = b.toNat ∧ charListLe as bs = true)) := by
  simp only [charListLe]
  split_ifs with h1 h2
  · simp [h1]
  · simp
    omega
  · have he : a.toNat = b.toNat := by omega
    simp [he, h1]

theorem charListLe_total : ∀ as bs : List Char,
    charListLe as bs = true ∨ charListLe bs as = true := by
  intro as
  induction as with
  | nil => intro bs; left; rfl
  | cons a as ih =>
      intro bs
      cases bs with
      | nil => right; rfl
      | cons b bs =>
          rcases Nat.lt_trichotomy a.toNat b.toNat with h | h | h
          · exact Or.inl (charListLe_cons.mpr (Or.inl h))
          · rcases ih bs with h2 | h2
            · exact Or.inl (charListLe_cons.mpr (Or.inr ⟨h, h2⟩))
            · exact Or.inr (charListLe_cons.mpr (Or.inr ⟨h.symm, h2⟩))
          · exact Or.inr (charListLe_cons.mpr (Or.inl h))

theorem charListLe_trans : ∀ as bs cs : List Char,
    charListLe as bs = true → charListLe bs cs = true → charListLe as cs = true := by
  intro as
  induction as with
  | nil => intro bs cs _ _; rfl
  | cons a as ih =>
      intro bs cs h1 h2
      cases bs with
      | nil => simp [charListLe] at h1
      | cons b bs =>
          cases cs with
          | nil => simp [charListLe] at h2
          | cons c cs =>
              rcases charListLe_cons.mp h1 with hx | ⟨hx, hr1⟩ <;>
                rcases charListLe_cons.mp h2 with hy | ⟨hy, hr2⟩
              · exact charListLe_cons.mpr (Or.inl (hx.trans hy))
              · exact charListLe_cons.mpr (Or.inl (hy ▸ hx))
              · exact charListLe_cons.mpr (Or.inl (hx ▸ hy))
              · exact charListLe_cons.mpr (Or.inr ⟨hx.trans hy, ih bs cs hr1 hr2⟩)

theorem strLeB_total (a b : String) : strLeB a b = true ∨ strLeB b a = true :=
  charListLe_total a.data b.data

theorem strLeB_trans {a b c : String} (h1 : strLeB a b = true)
    (h2 : strLeB b c = true) : strLeB a c = true :=
  charListLe_trans a.data b.data c.data h1 h2

theorem dateLtB_trichotomy (a b : PDate) :
    dateLtB a b = true ∨ a = b ∨ dateLtB b a = true := by
  obtain ⟨y1, m1, d1⟩ := a
  obtain ⟨y2, m2, d2⟩ := b
  simp only [dateLtB, PDate.mk.injEq]
  split_ifs <;> simp <;> omega

theorem dateLtB_trans {a b c : PDate} (h1 : dateLtB a b = true)
    (h2 : dateLtB b c = true) : dateLtB a c = true := by
  obtain ⟨y1, m1, d1⟩ := a
  obtain ⟨y2, m2, d2⟩ := b
  obtain ⟨y3, m3, d3⟩ := c
  simp only [dateLtB] at h1 h2 ⊢
  split_ifs at h1 h2 ⊢ <;> simp_all <;> omega

theorem trxLeB_iff {a b : Transaction} :
    trxLeB a b = true ↔
      (dateLtB a.date b.date = true ∨
        (a.date = b.date ∧ strLeB a.description b.description = true)) := by
  simp [trxLeB]

theorem trxLeB_total (a b : Transaction) : trxLeB a b = true ∨ trxLeB b a = true := by
  rcases dateLtB_trichotomy a.date b.date with h | h | h
  · exact Or.inl (trxLeB_iff.mpr (Or.inl h))
  · rcases strLeB_total a.description b.description with h2 | h2
    · exact Or.inl (trxLeB_iff.mpr (Or.inr ⟨h, h2⟩))
    · exact Or.inr (trxLeB_iff.mpr (Or.inr ⟨h.symm, h2⟩))
  · exact Or.inr (trxLeB_iff.mpr (Or.inl h))

theorem trxLeB_trans (a b c : Transaction) (h1 : trxLeB a b = true)
    (h2 : trxLeB b c = true) : trxLeB a c = true := by
  rcases trxLeB_iff.mp h1 with hx | ⟨hx, hr1⟩ <;>
    rcases trxLeB_iff.mp h2 with hy | ⟨hy, hr2⟩
  · exact trxLeB_iff.mpr (Or.inl (dateLtB_trans hx hy))
  · exact trxLeB_iff.mpr (Or.inl (hy ▸ hx))
  · exact trxLeB_iff.mpr (Or.inl (hx ▸ hy))
  · exact trxLeB_iff.mpr (Or.inr ⟨hx.trans hy, strLeB_trans hr1 hr2⟩)

theorem budLeB_total (a b : Budget) : budLeB a b = true ∨ budLeB b a = true :=
  strLeB_total _ _

theorem budLeB_trans (a b c : Budget) (h1 : budLeB a b = true)
    (h2 : budLeB b c = true) : budLeB a c = true := strLeB_trans h1 h2

theorem rowLeB_total (a b : AnalysisRow) : rowLeB a b = true ∨ rowLeB b a = true :=
  strLeB_total _ _

theorem rowLeB_trans (a b c : AnalysisRow) (h1 : rowLeB a b = true)
    (h2 : rowLeB b c = true) : rowLeB a c = true := strLeB_trans h1 h2

/-- "The transaction list is sorted by `(date, description)` ascending." -/
def TrxSorted (l : List Transaction) : Prop :=
  l.Pairwise (fun a b => trxLeB a b = true)

/-- "The budget list is sorted by category, case-insensitively." -/
def BudSorted (l : List Budget) : Prop :=
  l.Pairwise (fun a b => budLeB a b = true)

instance (l : List Transaction) : Decidable (TrxSorted l) :=
  inferInstanceAs (Decidable (l.Pairwise fun a b => trxLeB a b = true))

instance (l : List Budget) : Decidable (BudSorted l) :=
  inferInstanceAs (Decidable (l.Pairwise fun a b => budLeB a b = true))

example :
    monthly_summary ⟨[
      ⟨"a", ⟨2024, 12, 1⟩, "Salaire", "Revenus", 3200, "income", ""⟩,
      ⟨"b", ⟨2024, 12, 5⟩, "Loyer", "Logement", 900, "expense", ""⟩,
      ⟨"c", ⟨2024, 12, 12⟩, "Courses", "Alimentation", 441 / 2, "expense", ""⟩], []⟩
      (some "2024-12")
    = ⟨3200, 2241 / 2, 4159 / 2⟩ := by
  decide

example :
    budget_analysis ⟨[
      ⟨"a", ⟨2024, 12, 1⟩, "Salaire", "Revenus", 3200, "income", ""⟩,
      ⟨"b", ⟨2024, 12, 5⟩, "Loyer", "Logement", 900, "expense", ""⟩,
      ⟨"c", ⟨2024, 12, 12⟩, "Courses", "Alimentation", 441 / 2, "expense", ""⟩],
      [⟨"bL", "Logement", 950⟩, ⟨"bA", "Alimentation", 350⟩]⟩ (some "2024-12")
    = [⟨⟨"bA", "Alimentation", 350⟩, 441 / 2, 259 / 2, 63 / 100⟩,
       ⟨⟨"bL", "Logement", 950⟩, 900, 50, 18 / 19⟩] := by
  decide

example :
    import_csv (fun _ => "u") ⟨[], []⟩
      [[("Date", "garbage"), ("Description", "x"), ("Montant", "5")],
       [("Date", "2024-01-02"), ("Description", "y"), ("Montant", "-3.5"), ("Type", "Expense")]]
    = (⟨[⟨"u", ⟨2024, 1, 2⟩, "y", "Autre", 7 / 2, "expense", ""⟩], []⟩, 1) := by
  decide

/-! ### Claim C6: deletion is idempotent and a silent no-op on absent ids -/

/-- C6: for every store state and id, deleting twice equals deleting
once, and deleting an id absent from the collection leaves the store
unchanged (and raises no error — `delete_transaction` is total). -/
theorem delete_transaction_idempotent (s : Store) (trx_id : String) :
    delete_transaction (delete_transaction s trx_id) trx_id = delete_transaction s trx_id ∧
    ((∀ t ∈ s.transactions, t.id ≠ trx_id) → delete_transaction s trx_id = s) := by
  obtain ⟨ts, bs⟩ := s
  constructor
  · simp [delete_transaction, List.filter_filter]
  · intro h
    simp only [delete_transaction, Store.mk.injEq, and_true]
    exact List.filter_eq_self.mpr fun a ha => by simpa using h a ha

/-- Witness for C6 at a concrete store and an absent id. -/
theorem delete_transaction_idempotent_witness :
    delete_transaction (delete_transaction
        ⟨[⟨"a", ⟨2024, 1, 1⟩, "d", "c", 1, "expense", ""⟩], []⟩ "zz") "zz" =
      delete_transaction ⟨[⟨"a", ⟨2024, 1, 1⟩, "d", "c", 1, "expense", ""⟩], []⟩ "zz" ∧
    delete_transaction ⟨[⟨"a", ⟨2024, 1, 1⟩, "d", "c", 1, "expense", ""⟩], []⟩ "zz" =
      ⟨[⟨"a", ⟨2024, 1, 1⟩, "d", "c", 1, "expense", ""⟩], []⟩ := by
  have h := delete_transaction_idempotent
    ⟨[⟨"a", ⟨2024, 1, 1⟩, "d", "c", 1, "expense", ""⟩], []⟩ "zz"
  exact ⟨h.1, h.2 (by decide)⟩

/-! ### Claim C1: balance = incomes - expenses -/

theorem transactions_for_month_subset (s : Store) (month : Option String) :
    ∀ t ∈ transactions_for_month s month, t ∈ s.transactions := by
  intro t ht
  unfold transactions_for_month at ht
  cases month with
  | none => exact ht
  | some m =>
      dsimp only at ht
      by_cases hm : m = ""
      · simpa [hm] using ht
      · rw [if_neg hm] at ht
        exact List.mem_of_mem_filter ht

theorem balance_sum_split : ∀ l : List Transaction,
    (∀ t ∈ l, t.type = "income" ∨ (t.type = "expense" ∧ 0 ≤ t.amount)) →
    (l.map Transaction.signed_amount).sum =
      ((l.filter (fun t => t.type == "income")).map Transaction.amount).sum -
        ((l.filter (fun t => t.type == "expense")).map Transaction.amount).sum := by
  intro l
  induction l with
  | nil => simp
  | cons t l ih =>
      intro h
      have ht := h t (List.mem_cons_self t l)
      have hl := ih fun x hx => h x (List.mem_cons_of_mem t hx)
      rcases ht with hI | ⟨hE, hA⟩
      · have hne : ¬ ("income" : String) = "expense" := by decide
        simp only [List.map_cons, List.sum_cons, List.filter_cons,
          Transaction.signed_amount, hI]
        simp [hne, hl]
        try ring
      · have hne : ¬ ("expense" : String) = "income" := by decide
        simp only [List.map_cons, List.sum_cons, List.filter_cons,
          Transaction.signed_amount, hE]
        simp [hne, hl, abs_of_nonneg hA]
        try ring

/-- C1 (amended): when every transaction in the store has type
`"income"` or `"expense"` and a non-negative amount — the shape every
engine constructor (`add_transaction`, `import_csv`) produces, though
`from_dict` does not enforce it — `monthly_summary` satisfies
`balance = incomes - expenses` exactly (hence within `1e-6`), for every
month key including the unfiltered one. -/
theorem monthly_summary_balance (s : Store) (month : Option String)
    (h : ∀ t ∈ s.transactions, t.type = "income" ∨ (t.type = "expense" ∧ 0 ≤ t.amount)) :
    (monthly_summary s month).balance =
      (monthly_summary s month).incomes - (monthly_summary s month).expenses := by
  exact balance_sum_split (transactions_for_month s month)
    fun t ht => h t (transactions_for_month_subset s month t ht)

/-- Witness for C1 at the self-test store and month. -/
theorem monthly_summary_balance_witness :
    (monthly_summary ⟨[
        ⟨"a", ⟨2024, 12, 1⟩, "Salaire", "Revenus", 3200, "income", ""⟩,
        ⟨"b", ⟨2024, 12, 5⟩, "Loyer", "Logement", 900, "expense", ""⟩], []⟩
      (some "2024-12")).balance =
    (monthly_summary ⟨[
        ⟨"a", ⟨2024, 12, 1⟩, "Salaire", "Revenus", 3200, "income", ""⟩,
        ⟨"b", ⟨2024, 12, 5⟩, "Loyer", "Logement", 900, "expense", ""⟩], []⟩
      (some "2024-12")).incomes -
    (monthly_summary ⟨[
        ⟨"a", ⟨2024, 12, 1⟩, "Salaire", "Revenus", 3200, "income", ""⟩,
        ⟨"b", ⟨2024, 12, 5⟩, "Loyer", "Logement", 900, "expense", ""⟩], []⟩
      (some "2024-12")).expenses :=
  monthly_summary_balance _ (some "2024-12") (by decide)

/-- C1 counterexample: over all raw store states the claim is false. A
transaction deserialized by `from_dict` with amount `-5` and type
`expense` (no absolute value is taken there) makes
`balance = -5` while `incomes - expenses = 5`: off by `10 > 1e-6`. -/
theorem monthly_summary_balance_counterexample :
    ¬ (|(monthly_summary ⟨[⟨"t", ⟨2024, 1, 1⟩, "d", "c", -5, "expense", ""⟩], []⟩ none).balance -
        ((monthly_summary ⟨[⟨"t", ⟨2024, 1, 1⟩, "d", "c", -5, "expense", ""⟩], []⟩ none).incomes -
          (monthly_summary ⟨[⟨"t", ⟨2024, 1, 1⟩, "d", "c", -5, "expense", ""⟩], []⟩ none).expenses)|
      ≤ 1 / 1000000) := by
  decide

/-! ### Claim C5: budget_analysis row invariants -/

theorem updAssoc_nonneg {l : List (String × ℚ)} {k : String} {v : ℚ}
    (hl : ∀ p ∈ l, 0 ≤ p.2) (hv : 0 ≤ v) : ∀ p ∈ updAssoc l k v, 0 ≤ p.2 := by
  induction l with
  | nil =>
      intro p hp
      simp only [updAssoc, List.mem_singleton] at hp
      subst hp
      exact hv
  | cons q rest ih =>
      obtain ⟨k0, v0⟩ := q
      intro p hp
      by_cases hk : k0 = k
      · simp only [updAssoc, hk, if_true] at hp
        rcases List.mem_cons.mp hp with rfl | hp
        · exact add_nonneg (hl (k, v0) (by simp [hk])) hv
        · exact hl p (List.mem_cons_of_mem _ hp)
      · simp only [updAssoc, hk, if_false] at hp
        rcases List.mem_cons.mp hp with rfl | hp
        · exact hl _ (List.mem_cons_self _ _)
        · exact ih (fun r hr => hl r (List.mem_cons_of_mem _ hr)) p hp

theorem catStep_nonneg {fe : Bool} {acc : List (String × ℚ)} {trx : Transaction}
    (h : ∀ p ∈ acc, 0 ≤ p.2) : ∀ p ∈ catStep fe acc trx, 0 ≤ p.2 := by
  unfold catStep
  split_ifs <;> first
    | exact h
    | exact updAssoc_nonneg h (abs_nonneg _)

theorem foldl_catStep_nonneg (fe : Bool) :
    ∀ (l : List Transaction) (acc : List (String × ℚ)),
      (∀ p ∈ acc, 0 ≤ p.2) → ∀ p ∈ l.foldl (catStep fe) acc, 0 ≤ p.2 := by
  intro l
  induction l with
  | nil => intro acc h; exact h
  | cons t l ih =>
      intro acc h
      exact ih (catStep fe acc t) (catStep_nonneg h)

theorem totalsGet_nonneg {l : List (String × ℚ)} (h : ∀ p ∈ l, 0 ≤ p.2)
    (k : String) : 0 ≤ totalsGet l k := by
  unfold totalsGet
  cases hf : l.find? (fun p => p.1 == k) with
  | none => exact le_refl 0
  | some p => exact h p (List.mem_of_find?_eq_some hf)

theorem spent_nonneg (s : Store) (month : Option String) (k : String) :
    0 ≤ totalsGet (category_totals s month true) k :=
  totalsGet_nonneg
    (foldl_catStep_nonneg true (transactions_for_month s month) [] (by simp)) k

/-- C5 (amended): every row of `budget_analysis` has
`ratio = 0` when the budget's `monthly_limit = 0` and
`ratio = min 1 (spent / monthly_limit)` otherwise;
`remaining = monthly_limit - spent`, negative exactly when
`spent > monthly_limit`; `spent ≥ 0` always; and `ratio ∈ [0, 1]`
whenever the row's `monthly_limit` is non-negative (which
`add_budget`/`update_budget` guarantee, though `Budget.from_dict` does
not). -/
theorem budget_analysis_row_invariants (s : Store) (month : Option String)
    (r : AnalysisRow) (hr : r ∈ budget_analysis s month) :
    r.ratio = (if r.budget.monthly_limit = 0 then 0
      else min 1 (r.spent / r.budget.monthly_limit)) ∧
    r.remaining = r.budget.monthly_limit - r.spent ∧
    (r.remaining < 0 ↔ r.budget.monthly_limit < r.spent) ∧
    0 ≤ r.spent ∧
    (0 ≤ r.budget.monthly_limit → 0 ≤ r.ratio ∧ r.ratio ≤ 1) := by
  unfold budget_analysis at hr
  have hr2 := mem_isortB.mp hr
  rcases List.mem_map.mp hr2 with ⟨b, _, rfl⟩
  dsimp only
  refine ⟨rfl, rfl, sub_neg, spent_nonneg s month b.category, ?_⟩
  intro hb0
  by_cases hz : b.monthly_limit = 0
  · simp [hz]
  · have hpos : 0 < b.monthly_limit := lt_of_le_of_ne hb0 (Ne.symm hz)
    have hsp := spent_nonneg s month b.category
    simp only [hz, if_false]
    exact ⟨le_min zero_le_one (div_nonneg hsp hb0), min_le_left _ _⟩

/-- Witness for C5 at a concrete store with one expense and one budget. -/
theorem budget_analysis_row_invariants_witness :
    (⟨⟨"bL", "Logement", 950⟩, 900, 50, 18 / 19⟩ : AnalysisRow) ∈
      budget_analysis ⟨[⟨"b", ⟨2024, 12, 5⟩, "Loyer", "Logement", 900, "expense", ""⟩],
        [⟨"bL", "Logement", 950⟩]⟩ (some "2024-12") ∧
    (18 / 19 : ℚ) = (if (950 : ℚ) = 0 then 0 else min 1 (900 / 950)) ∧
    (50 : ℚ) = 950 - 900 ∧
    (0 ≤ (18 / 19 : ℚ) ∧ (18 / 19 : ℚ) ≤ 1) := by
  have h := budget_analysis_row_invariants
    ⟨[⟨"b", ⟨2024, 12, 5⟩, "Loyer", "Logement", 900, "expense", ""⟩],
      [⟨"bL", "Logement", 950⟩]⟩ (some "2024-12")
    ⟨⟨"bL", "Logement", 950⟩, 900, 50, 18 / 19⟩ (by decide)
  exact ⟨by decide, h.1, h.2.1, h.2.2.2.2 (by decide)⟩

/-- C5 counterexample: over all raw store states the `ratio ∈ [0, 1]`
part is false.  A budget deserialized with `monthly_limit = -10` (no
absolute value is taken in `Budget.from_dict`) and spending `5` in its
category gives `ratio = min 1 (5 / -10) = -1/2 < 0`. -/
theorem budget_analysis_ratio_counterexample :
    ¬ (∀ r ∈ budget_analysis
        ⟨[⟨"t", ⟨2024, 1, 1⟩, "d", "A", 5, "expense", ""⟩], [⟨"bA", "A", -10⟩]⟩ none,
        0 ≤ r.ratio ∧ r.ratio ≤ 1) := by
  decide

/-! ### Claim C4: sort maintenance across mutations -/

theorem importCsvGo_sorted (ids : ℕ → String) :
    ∀ (rows : List CsvRow) (s : Store) (n : ℕ), TrxSorted s.transactions →
      TrxSorted ((importCsvGo ids rows s n).1).transactions := by
  intro rows
  induction rows with
  | nil => intro s n h; exact h
  | cons r rest ih =>
      intro s n h
      cases hp : parseCsvRow r with
      | none =>
          simp only [importCsvGo, hp]
          exact ih s n h
      | some p =>
          simp only [importCsvGo, hp]
          exact ih _ _ (pairwise_isortB trxLeB_total trxLeB_trans _)

/-- C4 (amended): `add_transaction` and `add_budget` always leave their
collection sorted (by `(date, description)`, resp. by lower-cased
category), `import_csv` preserves transaction sortedness, and
`delete_transaction` preserves sortedness; but `update_transaction` and
`update_budget` do not re-sort, so an update can leave the collection
out of order (see the counterexample). -/
theorem mutation_sort_invariants :
    (∀ (fresh : String) (s : Store) (dv : PDate) (de cat : String) (q : ℚ)
        (ty no : String),
      TrxSorted ((add_transaction fresh s dv de cat q ty no).1).transactions) ∧
    (∀ (fresh : String) (s : Store) (cat : String) (q : ℚ),
      BudSorted ((add_budget fresh s cat q).1).budgets) ∧
    (∀ (ids : ℕ → String) (s : Store) (rows : List CsvRow),
      TrxSorted s.transactions → TrxSorted ((import_csv ids s rows).1).transactions) ∧
    (∀ (s : Store) (trx_id : String),
      TrxSorted s.transactions → TrxSorted (delete_transaction s trx_id).transactions) := by
  refine ⟨?_, ?_, ?_, ?_⟩
  · intro fresh s dv de cat q ty no
    exact pairwise_isortB trxLeB_total trxLeB_trans _
  · intro fresh s cat q
    exact pairwise_isortB budLeB_total budLeB_trans _
  · intro ids s rows h
    exact importCsvGo_sorted ids rows s 0 h
  · intro s trx_id h
    exact h.filter _

/-- Witness for C4 at concrete stores. -/
theorem mutation_sort_invariants_witness :
    TrxSorted ((add_transaction "n" ⟨[], []⟩ ⟨2024, 1, 2⟩ "b" "c" 1 "expense" "").1).transactions ∧
    TrxSorted ((delete_transaction ⟨[⟨"a", ⟨2024, 1, 1⟩, "a", "c", 1, "expense", ""⟩,
        ⟨"b", ⟨2024, 1, 2⟩, "b", "c", 1, "expense", ""⟩], []⟩ "a").transactions) := by
  have h := mutation_sort_invariants
  exact ⟨h.1 "n" ⟨[], []⟩ ⟨2024, 1, 2⟩ "b" "c" 1 "expense" "",
    h.2.2.2 ⟨[⟨"a", ⟨2024, 1, 1⟩, "a", "c", 1, "expense", ""⟩,
      ⟨"b", ⟨2024, 1, 2⟩, "b", "c", 1, "expense", ""⟩], []⟩ "a" (by decide)⟩

/-- C4 counterexample: `update_transaction` keeps the record in place
without re-sorting, so moving the first transaction's date past the
second leaves the collection unsorted. -/
theorem update_transaction_no_resort_counterexample :
    update_transaction
        ⟨[⟨"a", ⟨2024, 1, 1⟩, "a", "c", 1, "expense", ""⟩,
          ⟨"b", ⟨2024, 1, 2⟩, "b", "c", 1, "expense", ""⟩], []⟩ "a"
        { date := some (.pydate ⟨2024, 1, 3⟩), date_value := none, description := none,
          category := none, amount := none, type := none, type_ := none, notes := none }
      = .ok ⟨[⟨"a", ⟨2024, 1, 3⟩, "a", "c", 1, "expense", ""⟩,
              ⟨"b", ⟨2024, 1, 2⟩, "b", "c", 1, "expense", ""⟩], []⟩ ∧
    TrxSorted [⟨"a", ⟨2024, 1, 1⟩, "a", "c", 1, "expense", ""⟩,
      ⟨"b", ⟨2024, 1, 2⟩, "b", "c", 1, "expense", ""⟩] ∧
    ¬ TrxSorted [⟨"a", ⟨2024, 1, 3⟩, "a", "c", 1, "expense", ""⟩,
      ⟨"b", ⟨2024, 1, 2⟩, "b", "c", 1, "expense", ""⟩] := by
  refine ⟨by decide, by decide, by decide⟩

/-! ### Claim C3: amount normalization to absolute value -/

theorem applyDateUpd_amount {trx : Transaction} {u : TrxUpdates} {t1 : Transaction}
    (h : applyDateUpd trx u = .ok t1) : t1.amount = trx.amount := by
  unfold applyDateUpd at h
  split at h
  · dsimp only at h
    split at h
    · cases h
      rfl
    · split at h
      · cases h
        rfl
      · simp at h
    · split at h
      · cases h
        rfl
      · simp at h
  · cases h
    rfl

theorem applyUpdates_amount_nonneg {trx : Transaction} {u : TrxUpdates} {t2 : Transaction}
    (h : applyUpdates trx u = .ok t2) (h0 : 0 ≤ trx.amount) : 0 ≤ t2.amount := by
  unfold applyUpdates at h
  split at h
  · simp at h
  · rename_i t1 heq
    have ht1 : t1.amount = trx.amount := applyDateUpd_amount heq
    dsimp only at h
    split at h
    · simp at h
    · rename_i t4 heq2
      cases h
      have ht4 : 0 ≤ t4.amount := by
        cases hu : u.amount with
        | none =>
            rw [hu] at heq2
            cases heq2
            cases hd : u.description <;> cases hc : u.category <;>
              simp only [hd, hc] <;> simpa [ht1] using h0
        | some v =>
            rw [hu] at heq2
            dsimp only at heq2
            cases hv : pyFloatOf v with
            | error e =>
                rw [hv] at heq2
                simp [Except.map] at heq2
            | ok q =>
                rw [hv] at heq2
                simp only [Except.map] at heq2
                cases heq2
                exact abs_nonneg q
      cases hn : u.notes <;> simp only [hn] <;>
        first
          | (split <;> simpa using ht4)
          | simpa using ht4

theorem mem_replaceFirst_const {l : List α} {p : α → Bool} {y x : α}
    (h : x ∈ replaceFirst l p (fun _ => y)) : x ∈ l ∨ x = y := by
  induction l with
  | nil => simp [replaceFirst] at h
  | cons a t ih =>
      by_cases hp : p a = true
      · simp only [replaceFirst, hp, if_true] at h
        rcases List.mem_cons.mp h with rfl | h
        · exact Or.inr rfl
        · exact Or.inl (List.mem_cons_of_mem _ h)
      · simp only [replaceFirst, hp, if_false] at h
        rcases List.mem_cons.mp h with rfl | h
        · exact Or.inl (List.mem_cons_self _ _)
        · rcases ih h with h2 | h2
          · exact Or.inl (List.mem_cons_of_mem _ h2)
          · exact Or.inr h2

/-- C3 (amended): `add_transaction` stores the absolute value of the
input amount and preserves `amount ≥ 0` across the store;
`update_transaction` also preserves `amount ≥ 0` (a supplied amount is
stored as its absolute value); but `Transaction.from_dict` stores the
input amount unchanged, so deserialization does not normalize negative
amounts (see the counterexample). -/
theorem amount_normalization :
    (∀ (fresh : String) (s : Store) (dv : PDate) (de cat : String) (q : ℚ)
        (ty no : String),
      ((add_transaction fresh s dv de cat q ty no).2).amount = |q| ∧
      ((∀ t ∈ s.transactions, 0 ≤ t.amount) →
        ∀ t ∈ ((add_transaction fresh s dv de cat q ty no).1).transactions,
          0 ≤ t.amount)) ∧
    (∀ (s : Store) (trx_id : String) (u : TrxUpdates) (s2 : Store),
      update_transaction s trx_id u = .ok s2 →
      (∀ t ∈ s.transactions, 0 ≤ t.amount) → ∀ t ∈ s2.transactions, 0 ≤ t.amount) ∧
    (∀ (fresh : String) (d : PyDict) (q : ℚ) (t : Transaction),
      dictGet d "amount" = some (.num q) →
      Transaction.from_dict fresh d = .ok t → t.amount = q) := by
  refine ⟨?_, ?_, ?_⟩
  · intro fresh s dv de cat q ty no
    refine ⟨rfl, ?_⟩
    intro h t ht
    have ht2 := mem_isortB.mp ht
    rcases List.mem_append.mp ht2 with ht3 | ht3
    · exact h t ht3
    · rcases List.mem_singleton.mp ht3 with rfl
      exact abs_nonneg q
  · intro s trx_id u s2 h h0
    unfold update_transaction at h
    split at h
    · simp at h
    · rename_i trx heq
      split at h
      · rename_i t2 heq2
        cases h
        intro t ht
        rcases mem_replaceFirst_const ht with ht2 | rfl
        · exact h0 t ht2
        · have htrx : trx ∈ s.transactions :=
            List.mem_of_find?_eq_some heq
          exact applyUpdates_amount_nonneg heq2 (h0 trx htrx)
      · simp at h
  · intro fresh d q t hq h
    unfold Transaction.from_dict at h
    split at h
    · simp at h
    · split at h
      · simp at h
      · split at h
        · simp at h
        · rename_i amt heq
          cases h
          simp only [dictGetD, hq, Option.getD_some] at heq
          cases heq
          rfl

/-- Witness for C3: a negative input amount is stored as `7` by
`add_transaction`, an update keeps amounts non-negative, and
`from_dict` passes a (positive) amount through unchanged. -/
theorem amount_normalization_witness :
    ((add_transaction "n" ⟨[], []⟩ ⟨2024, 1, 1⟩ "d" "c" (-7) "expense" "").2).amount = 7 ∧
    (∀ t ∈ ((add_transaction "n" ⟨[], []⟩ ⟨2024, 1, 1⟩ "d" "c" (-7) "expense" "").1).transactions,
      0 ≤ t.amount) ∧
    (∀ t ∈ (⟨[⟨"a", ⟨2024, 1, 1⟩, "d", "c", 3, "expense", ""⟩], []⟩ : Store).transactions,
      0 ≤ t.amount) := by
  have h := amount_normalization
  refine ⟨?_, ?_, ?_⟩
  · exact (h.1 "n" ⟨[], []⟩ ⟨2024, 1, 1⟩ "d" "c" (-7) "expense" "").1.trans (by decide)
  · exact (h.1 "n" ⟨[], []⟩ ⟨2024, 1, 1⟩ "d" "c" (-7) "expense" "").2 (by decide)
  · exact h.2.1 ⟨[⟨"a", ⟨2024, 1, 1⟩, "d", "c", 1, "expense", ""⟩], []⟩ "a"
      { date := none, date_value := none, description := none, category := none,
        amount := some (.num (-3)), type := none, type_ := none, notes := none }
      ⟨[⟨"a", ⟨2024, 1, 1⟩, "d", "c", 3, "expense", ""⟩], []⟩ (by decide) (by decide)

/-- C3 counterexample: `Transaction.from_dict` keeps a negative amount
negative (the claim requires the absolute value there as well). -/
theorem from_dict_negative_amount_counterexample :
    (Transaction.from_dict "f" [("date", .str "2024-01-01"), ("amount", .num (-5))]).map
        Transaction.amount = .ok (-5) ∧ ¬ (0 ≤ (-5 : ℚ)) :=
  ⟨by decide, by decide⟩

/-! ### Claim C10: Budget.from_dict limit-key fallback -/

/-- C10: `Budget.from_dict` reads the monthly limit from the
`"monthly_limit"` key when present, otherwise falls back to the
`"limit"` key (the alternate variant's spelling), and defaults to `0.0`
when both are absent. -/
theorem budget_from_dict_limit_fallback :
    (∀ (fresh : String) (d : PyDict) (q : ℚ),
      dictGet d "monthly_limit" = some (.num q) →
      (Budget.from_dict fresh d).toOption.map Budget.monthly_limit = some q) ∧
    (∀ (fresh : String) (d : PyDict) (q : ℚ),
      dictGet d "monthly_limit" = none → dictGet d "limit" = some (.num q) →
      (Budget.from_dict fresh d).toOption.map Budget.monthly_limit = some q) ∧
    (∀ (fresh : String) (d : PyDict),
      dictGet d "monthly_limit" = none → dictGet d "limit" = none →
      (Budget.from_dict fresh d).toOption.map Budget.monthly_limit = some 0) := by
  refine ⟨?_, ?_, ?_⟩
  · intro fresh d q h1
    unfold Budget.from_dict
    rw [h1]
    rfl
  · intro fresh d q h1 h2
    unfold Budget.from_dict
    rw [h1]
    dsimp only
    simp only [dictGetD, h2, Option.getD_some]
    rfl
  · intro fresh d h1 h2
    unfold Budget.from_dict
    rw [h1]
    dsimp only
    simp only [dictGetD, h2, Option.getD_none]
    rfl

/-- Witness for C10: the three key layouts at concrete documents; in
particular a document written by the alternate variant (`"limit"` key)
keeps its limit `42.5` instead of resetting to zero. -/
theorem budget_from_dict_limit_fallback_witness :
    (Budget.from_dict "f" [("monthly_limit", .num 7), ("limit", .num 9)]).toOption.map
        Budget.monthly_limit = some 7 ∧
    (Budget.from_dict "f" [("category", .str "Loisirs"), ("limit", .num (85 / 2))]).toOption.map
        Budget.monthly_limit = some (85 / 2) ∧
    (Budget.from_dict "f" [("category", .str "Loisirs")]).toOption.map
        Budget.monthly_limit = some 0 := by
  have h := budget_from_dict_limit_fallback
  exact ⟨h.1 "f" _ 7 (by decide), h.2.1 "f" _ (85 / 2) (by decide) (by decide),
    h.2.2 "f" _ (by decide) (by decide)⟩

/-! ### Claim C2: serialization round-trip -/

theorem char_toNat_inj {a b : Char} (h : a.toNat = b.toNat) : a = b :=
  Char.eq_of_val_eq (UInt32.ext h)

theorem char_eq_iff_toNat {a b : Char} : a = b ↔ a.toNat = b.toNat :=
  ⟨fun h => h ▸ rfl, char_toNat_inj⟩

theorem digitChar_toNat (n : ℕ) : (digitChar n).toNat = 48 + n % 10 := by
  have h : n % 10 < 10 := Nat.mod_lt _ (by norm_num)
  have key : ∀ k : Fin 10, (Char.ofNat (48 + k.val)).toNat = 48 + k.val := by decide
  exact key ⟨n % 10, h⟩

theorem digitChar_isDigit (n : ℕ) : (digitChar n).isDigit = true := by
  have h : n % 10 < 10 := Nat.mod_lt _ (by norm_num)
  have key : ∀ k : Fin 10, (Char.ofNat (48 + k.val)).isDigit = true := by decide
  exact key ⟨n % 10, h⟩

theorem digitChar_not_ws (n : ℕ) : (digitChar n).isWhitespace = false := by
  have h : n % 10 < 10 := Nat.mod_lt _ (by norm_num)
  have key : ∀ k : Fin 10, (Char.ofNat (48 + k.val)).isWhitespace = false := by decide
  exact key ⟨n % 10, h⟩

theorem digVal_digitChar (n : ℕ) : digVal (digitChar n) = n % 10 := by
  unfold digVal
  rw [digitChar_toNat]
  omega

theorem digits4_pad4 {y : ℕ} (hy : y ≤ 9999) (r : List Char) :
    digits4 (pad4 y ++ r) = some (y, r) := by
  simp only [pad4, List.cons_append, List.nil_append]
  unfold digits4
  dsimp only
  rw [if_pos (by simp [digitChar_isDigit])]
  simp only [digVal_digitChar, Option.some.injEq, Prod.mk.injEq]
  exact ⟨by omega, trivial⟩

theorem month2_pad2 {m : ℕ} (h1 : 1 ≤ m) (h2 : m ≤ 12) (r : List Char) :
    month2 (pad2 m ++ r) = some (m, r) := by
  simp only [pad2, List.cons_append, List.nil_append]
  unfold month2
  by_cases hm : m < 10
  · have hA : ¬ (digitChar (m / 10) = '1') := by
      rw [char_eq_iff_toNat, digitChar_toNat]
      show ¬ (48 + m / 10 % 10 = 49)
      omega
    have hB : digitChar (m / 10) = '0' := by
      apply char_toNat_inj
      rw [digitChar_toNat]
      show 48 + m / 10 % 10 = 48
      omega
    have hC : ('1' : Char) ≤ digitChar m := by
      show ('1' : Char).toNat ≤ (digitChar m).toNat
      rw [digitChar_toNat]
      show 49 ≤ 48 + m % 10
      omega
    have hD : digitChar m ≤ ('9' : Char) := by
      show (digitChar m).toNat ≤ ('9' : Char).toNat
      rw [digitChar_toNat]
      show 48 + m % 10 ≤ 57
      omega
    simp [hA, hB, hC, hD, digVal_digitChar]
    omega
  · have hA : digitChar (m / 10) = '1' := by
      apply char_toNat_inj
      rw [digitChar_toNat]
      show 48 + m / 10 % 10 = 49
      omega
    have hB : ('0' : Char) ≤ digitChar m := by
      show ('0' : Char).toNat ≤ (digitChar m).toNat
      rw [digitChar_toNat]
      show 48 ≤ 48 + m % 10
      omega
    have hC : digitChar m ≤ ('2' : Char) := by
      show (digitChar m).toNat ≤ ('2' : Char).toNat
      rw [digitChar_toNat]
      show 48 + m % 10 ≤ 50
      omega
    simp [hA, hB, hC, digVal_digitChar]
    omega

theorem day2_pad2 {d : ℕ} (h1 : 1 ≤ d) (h2 : d ≤ 31) (r : List Char) :
    day2 (pad2 d ++ r) = some (d, r) := by
  simp only [pad2, List.cons_append, List.nil_append]
  unfold day2
  rcases Nat.lt_or_ge d 10 with hd | hd
  · have hA : ¬ (digitChar (d / 10) = '3') := by
      rw [char_eq_iff_toNat, digitChar_toNat]
      show ¬ (48 + d / 10 % 10 = 51)
      omega
    have hB : ¬ (('1' : Char) ≤ digitChar (d / 10)) := by
      show ¬ (('1' : Char).toNat ≤ (digitChar (d / 10)).toNat)
      rw [digitChar_toNat]
      show ¬ (49 ≤ 48 + d / 10 % 10)
      omega
    have hC : digitChar (d / 10) = '0' := by
      apply char_toNat_inj
      rw [digitChar_toNat]
      show 48 + d / 10 % 10 = 48
      omega
    have hD : ('1' : Char) ≤ digitChar d := by
      show ('1' : Char).toNat ≤ (digitChar d).toNat
      rw [digitChar_toNat]
      show 49 ≤ 48 + d % 10
      omega
    have hE : digitChar d ≤ ('9' : Char) := by
      show (digitChar d).toNat ≤ ('9' : Char).toNat
      rw [digitChar_toNat]
      show 48 + d % 10 ≤ 57
      omega
    simp [hA, hB, hC, hD, hE, digVal_digitChar]
    omega
  · rcases Nat.lt_or_ge d 30 with hd2 | hd2
    · have hA : ¬ (digitChar (d / 10) = '3') := by
        rw [char_eq_iff_toNat, digitChar_toNat]
        show ¬ (48 + d / 10 % 10 = 51)
        omega
      have hB : ('1' : Char) ≤ digitChar (d / 10) := by
        show ('1' : Char).toNat ≤ (digitChar (d / 10)).toNat
        rw [digitChar_toNat]
        show 49 ≤ 48 + d / 10 % 10
        omega
      have hC : digitChar (d / 10) ≤ ('2' : Char) := by
        show (digitChar (d / 10)).toNat ≤ ('2' : Char).toNat
        rw [digitChar_toNat]
        show 48 + d / 10 % 10 ≤ 50
        omega
      simp [hA, hB, hC, digitChar_isDigit, digVal_digitChar]
      omega
    · have hA : digitChar (d / 10) = '3' := by
        apply char_toNat_inj
        rw [digitChar_toNat]
        show 48 + d / 10 % 10 = 51
        omega
      have hB : ('0' : Char) ≤ digitChar d := by
        show ('0' : Char).toNat ≤ (digitChar d).toNat
        rw [digitChar_toNat]
        show 48 ≤ 48 + d % 10
        omega
      have hC : digitChar d ≤ ('1' : Char) := by
        show (digitChar d).toNat ≤ ('1' : Char).toNat
        rw [digitChar_toNat]
        show 48 + d % 10 ≤ 49
        omega
      simp [hA, hB, hC, digVal_digitChar]
      omega

theorem daysInMonth_le_31 (y m : ℕ) : daysInMonth y m ≤ 31 := by
  unfold daysInMonth
  split_ifs <;> simp_all <;> split_ifs <;> norm_num

theorem dateOk_bounds {y m d : ℕ} (h : dateOk y m d = true) :
    1 ≤ y ∧ y ≤ 9999 ∧ 1 ≤ m ∧ m ≤ 12 ∧ 1 ≤ d ∧ d ≤ 31 := by
  have h31 := daysInMonth_le_31 y m
  simp only [dateOk, Bool.and_eq_true, decide_eq_true_eq] at h
  omega

theorem tryFmtYmd_iso {dt : PDate} (h : dt.Valid) :
    tryFmtYmd '-' (pad4 dt.year ++ '-' :: (pad2 dt.month ++ '-' :: pad2 dt.day))
      = some dt := by
  obtain ⟨y, m, d⟩ := dt
  have hok : dateOk y m d = true := h
  have hb := dateOk_bounds hok
  unfold tryFmtYmd ymdScan
  rw [digits4_pad4 hb.2.1]
  try dsimp only
  rw [if_pos rfl]
  unfold monthCands
  rw [month2_pad2 hb.2.2.1 hb.2.2.2.1]
  have hday : day2 (pad2 d) = some (d, []) := by
    have := day2_pad2 hb.2.2.2.2.1 hb.2.2.2.2.2 ([] : List Char)
    simpa using this
  unfold dayCands
  simp [hday, hok]

theorem dropWhile_eq_self_of_none {p : Char → Bool} {l : List Char}
    (h : ∀ c ∈ l, p c = false) : l.dropWhile p = l := by
  cases l with
  | nil => rfl
  | cons a t =>
      simp only [List.dropWhile_cons, h a (List.mem_cons_self a t),
        Bool.false_eq_true, if_false]

theorem pyStrip_eq_self {s : String}
    (h : ∀ c ∈ s.data, c.isWhitespace = false) : pyStrip s = s := by
  unfold pyStrip
  rw [dropWhile_eq_self_of_none h,
    dropWhile_eq_self_of_none (fun c hc => h c (List.mem_reverse.mp hc)),
    List.reverse_reverse]

theorem isoformat_data (d : PDate) :
    (isoformat d).data = pad4 d.year ++ '-' :: (pad2 d.month ++ '-' :: pad2 d.day) := rfl

theorem isoformat_not_ws (d : PDate) :
    ∀ c ∈ (isoformat d).data, c.isWhitespace = false := by
  intro c hc
  rw [isoformat_data] at hc
  simp only [pad4, pad2, List.cons_append, List.nil_append, List.mem_cons,
    List.mem_append, List.not_mem_nil, or_false] at hc
  rcases hc with rfl | rfl | rfl | rfl | rfl | rfl | rfl | rfl | rfl | rfl <;>
    first
      | exact digitChar_not_ws _
      | decide

theorem parse_date_isoformat {d : PDate} (h : d.Valid) :
    parse_date (isoformat d) = .ok d := by
  unfold parse_date
  rw [pyStrip_eq_self (isoformat_not_ws d)]
  dsimp only
  rw [isoformat_data, tryFmtYmd_iso h]
  rfl

theorem roundHalfEven_intCast (m : ℤ) : roundHalfEven (m : ℚ) = m := by
  unfold roundHalfEven
  dsimp only
  rw [Int.floor_intCast, sub_self]
  rw [if_pos (by norm_num)]

theorem round2_of_den {q : ℚ} (h : (q * 100).den = 1) : round2 q = q := by
  have h2 : ((q * 100).num : ℚ) = q * 100 := by
    conv_rhs => rw [← Rat.num_div_den (q * 100)]
    rw [h]
    simp
  unfold round2
  rw [← h2, roundHalfEven_intCast, h2]
  exact mul_div_cancel_right₀ q (by norm_num)

/-- C2 (amended): `from_dict (to_dict x) = x` field-for-field for both
entity kinds — dates serialized as `YYYY-MM-DD` text, non-ASCII
categories and empty notes preserved exactly — provided the id is
non-empty (else a fresh uuid replaces it), the date is a valid calendar
date, and the amount (resp. `monthly_limit`) is a whole multiple of
`0.01`: `to_dict` rounds amounts with `round(·, 2)`, so other amounts
are not preserved (see the counterexample). -/
theorem serialization_round_trip :
    (∀ (fresh : String) (t : Transaction), t.id ≠ "" → t.date.Valid →
      (t.amount * 100).den = 1 →
      Transaction.from_dict fresh (Transaction.to_dict t) = .ok t) ∧
    (∀ (fresh : String) (b : Budget), b.id ≠ "" →
      (b.monthly_limit * 100).den = 1 →
      Budget.from_dict fresh (Budget.to_dict b) = .ok b) := by
  constructor
  · intro fresh t hid hdate ha
    have hpd : parse_date (isoformat t.date) = .ok t.date := parse_date_isoformat hdate
    unfold Transaction.from_dict Transaction.to_dict
    simp [dictGet, dictGetD, pyStr, pyFloatOf, pyTruthy, hid, hpd, round2_of_den ha]
  · intro fresh b hid ha
    unfold Budget.from_dict Budget.to_dict
    simp [dictGet, dictGetD, pyStr, pyFloatOf, pyTruthy, hid, round2_of_den ha]

/-- Witness for C2: a transaction with a non-ASCII category and empty
notes, and a budget, both with two-decimal amounts, round-trip exactly. -/
theorem serialization_round_trip_witness :
    Transaction.from_dict "fresh" (Transaction.to_dict
        ⟨"t1", ⟨2024, 12, 5⟩, "Médecin", "Santé", 441 / 2, "expense", ""⟩) =
      .ok ⟨"t1", ⟨2024, 12, 5⟩, "Médecin", "Santé", 441 / 2, "expense", ""⟩ ∧
    Budget.from_dict "fresh" (Budget.to_dict ⟨"b1", "Santé", 85 / 2⟩) =
      .ok ⟨"b1", "Santé", 85 / 2⟩ := by
  have h := serialization_round_trip
  exact ⟨h.1 "fresh" ⟨"t1", ⟨2024, 12, 5⟩, "Médecin", "Santé", 441 / 2, "expense", ""⟩
      (by decide) (by decide) (by decide),
    h.2 "fresh" ⟨"b1", "Santé", 85 / 2⟩ (by decide) (by decide)⟩

/-- C2 counterexample: `to_dict` rounds the amount to two decimals
(half-to-even), so a transaction with amount `0.125` deserializes with
amount `0.12`, not equal field-for-field to the original. -/
theorem serialization_round_trip_counterexample :
    Transaction.from_dict "f" (Transaction.to_dict
        ⟨"t1", ⟨2024, 1, 1⟩, "d", "c", 1 / 8, "expense", ""⟩) =
      .ok ⟨"t1", ⟨2024, 1, 1⟩, "d", "c", 12 / 100, "expense", ""⟩ ∧
    Transaction.from_dict "f" (Transaction.to_dict
        ⟨"t1", ⟨2024, 1, 1⟩, "d", "c", 1 / 8, "expense", ""⟩) ≠
      .ok ⟨"t1", ⟨2024, 1, 1⟩, "d", "c", 1 / 8, "expense", ""⟩ :=
  ⟨by decide, by decide⟩

/-! ### Claim C7: parse_date format priority and error behaviour -/

theorem flatten_map_singleton {l : List Char} {f : Char → List Char}
    (h : ∀ c ∈ l, f c = [c]) : (l.map f).flatten = l := by
  induction l with
  | nil => rfl
  | cons a t ih =>
      simp only [List.map_cons, List.flatten_cons, h a (List.mem_cons_self a t),
        List.singleton_append, List.cons.injEq, true_and]
      exact ih fun c hc => h c (List.mem_cons_of_mem a hc)

theorem pyRepr_no_quote {v : String} (hq : v.data.contains qChar = false)
    (hesc : ∀ c ∈ v.data, escChar qChar c = [c]) :
    (pyRepr v).data = qChar :: (v.data ++ [qChar]) := by
  unfold pyRepr
  rw [hq]
  simp only [Bool.false_and, Bool.false_eq_true, if_false]
  rw [flatten_map_singleton hesc]

/-- C7 (amended): `parse_date` tries `%Y-%m-%d`, `%d/%m/%Y`, `%d-%m-%Y`,
`%Y/%m/%d` in that fixed order on the *stripped* input and returns the
first full match; it raises `ValueError` if and only if no format
matches, and the error message contains the `repr` of the stripped
input — hence the stripped input text itself when that text has no
quotes, backslashes or control characters, but not the original text
when the input carries surrounding whitespace (see the counterexample). -/
theorem parse_date_priority_and_error (s : String) :
    (∀ d, tryFmtYmd '-' (pyStrip s).data = some d → parse_date s = .ok d) ∧
    (tryFmtYmd '-' (pyStrip s).data = none →
      ∀ d, tryFmtDmy '/' (pyStrip s).data = some d → parse_date s = .ok d) ∧
    (tryFmtYmd '-' (pyStrip s).data = none → tryFmtDmy '/' (pyStrip s).data = none →
      ∀ d, tryFmtDmy '-' (pyStrip s).data = some d → parse_date s = .ok d) ∧
    (tryFmtYmd '-' (pyStrip s).data = none → tryFmtDmy '/' (pyStrip s).data = none →
      tryFmtDmy '-' (pyStrip s).data = none →
      ∀ d, tryFmtYmd '/' (pyStrip s).data = some d → parse_date s = .ok d) ∧
    ((tryFmtYmd '-' (pyStrip s).data = none ∧ tryFmtDmy '/' (pyStrip s).data = none ∧
      tryFmtDmy '-' (pyStrip s).data = none ∧ tryFmtYmd '/' (pyStrip s).data = none) ↔
      parse_date s = .error (dateErrMsg (pyStrip s))) ∧
    ((pyStrip s).data.contains qChar = false →
      (∀ c ∈ (pyStrip s).data, escChar qChar c = [c]) →
      (pyStrip s).data <:+: (dateErrMsg (pyStrip s)).data) := by
  refine ⟨?_, ?_, ?_, ?_, ?_, ?_⟩
  · intro d h1
    unfold parse_date
    dsimp only
    rw [h1]
    rfl
  · intro h1 d h2
    unfold parse_date
    dsimp only
    rw [h1, h2]
    rfl
  · intro h1 h2 d h3
    unfold parse_date
    dsimp only
    rw [h1, h2, h3]
    rfl
  · intro h1 h2 h3 d h4
    unfold parse_date
    dsimp only
    rw [h1, h2, h3, h4]
    rfl
  · constructor
    · rintro ⟨h1, h2, h3, h4⟩
      unfold parse_date
      dsimp only
      rw [h1, h2, h3, h4]
      rfl
    · intro h
      unfold parse_date at h
      dsimp only at h
      cases h1 : tryFmtYmd '-' (pyStrip s).data with
      | some d => rw [h1] at h; simp [Option.orElse] at h
      | none =>
          cases h2 : tryFmtDmy '/' (pyStrip s).data with
          | some d => rw [h1, h2] at h; simp [Option.orElse] at h
          | none =>
              cases h3 : tryFmtDmy '-' (pyStrip s).data with
              | some d => rw [h1, h2, h3] at h; simp [Option.orElse] at h
              | none =>
                  cases h4 : tryFmtYmd '/' (pyStrip s).data with
                  | some d => rw [h1, h2, h3, h4] at h; simp [Option.orElse] at h
                  | none => exact ⟨rfl, rfl, rfl, rfl⟩

  · intro hq hesc
    unfold dateErrMsg
    rw [String.data_append, String.data_append, pyRepr_no_quote hq hesc]
    exact ⟨"Date invalide : ".data ++ [qChar], [qChar] ++ ". Utilisez AAAA-MM-JJ.".data,
      by simp⟩

/-- Witness for C7: the second format wins on `1/2/2024` once the first
fails; an unparseable input errors with a message containing the
stripped text. -/
theorem parse_date_priority_witness :
    parse_date "1/2/2024" = .ok ⟨2024, 2, 1⟩ ∧
    parse_date " zz " = .error (dateErrMsg (pyStrip " zz ")) ∧
    (pyStrip " zz ").data <:+: (dateErrMsg (pyStrip " zz ")).data := by
  refine ⟨(parse_date_priority_and_error "1/2/2024").2.1 (by decide) ⟨2024, 2, 1⟩ (by decide),
    ((parse_date_priority_and_error " zz ").2.2.2.2.1).mp (by decide), ?_⟩
  exact (parse_date_priority_and_error " zz ").2.2.2.2.2 (by decide) (by decide)

/-- C7 counterexample: for the input `" zz "` the raised message quotes
the *stripped* text `zz`, and the original input text `" zz "` does not
occur in it (the claim requires the original text). -/
theorem parse_date_error_message_counterexample :
    parse_date " zz " = .error (dateErrMsg "zz") ∧
    ¬ ((" zz " : String).data <:+: (dateErrMsg "zz").data) :=
  ⟨by decide, by decide⟩

/-! ### Claim C8: CSV import row handling -/

theorem importCsvGo_count (ids : ℕ → String) :
    ∀ (rows : List CsvRow) (s : Store) (n : ℕ),
      (importCsvGo ids rows s n).2 =
        n + (rows.filter (fun r => (parseCsvRow r).isSome)).length := by
  intro rows
  induction rows with
  | nil => intro s n; simp [importCsvGo]
  | cons r rest ih =>
      intro s n
      cases hp : parseCsvRow r with
      | none => simp [importCsvGo, hp, ih]
      | some p =>
          simp only [importCsvGo, hp, ih, List.filter_cons, Option.isSome_some,
            if_true, List.length_cons]
          omega

theorem add_transaction_length (fresh : String) (s : Store) (dv : PDate)
    (de cat : String) (q : ℚ) (ty no : String) :
    ((add_transaction fresh s dv de cat q ty no).1).transactions.length =
      s.transactions.length + 1 := by
  unfold add_transaction
  dsimp only
  rw [(isortB_perm trxLeB _).length_eq]
  simp

theorem importCsvGo_length (ids : ℕ → String) :
    ∀ (rows : List CsvRow) (s : Store) (n : ℕ),
      ((importCsvGo ids rows s n).1).transactions.length =
        s.transactions.length + (rows.filter (fun r => (parseCsvRow r).isSome)).length := by
  intro rows
  induction rows with
  | nil => intro s n; simp [importCsvGo]
  | cons r rest ih =>
      intro s n
      cases hp : parseCsvRow r with
      | none => simp [importCsvGo, hp, ih]
      | some p =>
          simp only [importCsvGo, hp, ih, add_transaction_length, List.filter_cons,
            Option.isSome_some, if_true, List.length_cons]
          omega

theorem import_csv_count (ids : ℕ → String) (s : Store) (rows : List CsvRow) :
    (import_csv ids s rows).2 =
      (rows.filter (fun r => (parseCsvRow r).isSome)).length := by
  unfold import_csv
  rw [importCsvGo_count]
  omega

theorem import_csv_length (ids : ℕ → String) (s : Store) (rows : List CsvRow) :
    ((import_csv ids s rows).1).transactions.length =
      s.transactions.length + (rows.filter (fun r => (parseCsvRow r).isSome)).length :=
  importCsvGo_length ids rows s 0

/-- C8 (amended): `import_csv` skips exactly the rows whose date or
amount fails to parse and imports every remaining row through the
`add_transaction` path, returning exactly the number accepted; a row's
type is the lowercased type column when that is `income`/`expense`,
defaults by sign of the amount (income iff `amount ≥ 0`) when the
column is present with an unrecognized value, and is `"expense"` when
the column is missing (the missing-column default `"expense"` is
recognized, so the sign rule does not fire then). -/
theorem import_csv_row_handling :
    (∀ (ids : ℕ → String) (s : Store) (rows : List CsvRow),
      (import_csv ids s rows).2 =
        (rows.filter (fun r => (parseCsvRow r).isSome)).length ∧
      ((import_csv ids s rows).1).transactions.length =
        s.transactions.length + (import_csv ids s rows).2) ∧
    (∀ (r : CsvRow) (amount : ℚ), rowGet r "Type" = none → rowGet r "type" = none →
      csvType r amount = "expense") ∧
    (∀ (r : CsvRow) (amount : ℚ) (v : String), rowGet r "Type" = some v →
      ¬ (pyLower v = "income" ∨ pyLower v = "expense") →
      csvType r amount = if 0 ≤ amount then "income" else "expense") ∧
    (∀ (r : CsvRow) (amount : ℚ) (v : String), rowGet r "Type" = some v →
      (pyLower v = "income" ∨ pyLower v = "expense") →
      csvType r amount = pyLower v) := by
  refine ⟨?_, ?_, ?_, ?_⟩
  · intro ids s rows
    refine ⟨import_csv_count ids s rows, ?_⟩
    rw [import_csv_count, import_csv_length]
  · intro r amount h1 h2
    unfold csvType rowGet2
    rw [h1, h2]
    rfl
  · intro r amount v h1 hv
    unfold csvType rowGet2
    rw [h1]
    dsimp only
    simp only [hv, if_false]
  · intro r amount v h1 hv
    unfold csvType rowGet2
    rw [h1]
    dsimp only
    simp only [hv, if_true]

/-- Witness for C8: scenario 3 — a file with one unparseable-date row
and one valid row imports exactly 1 record and returns 1; the
type-default cases at concrete rows. -/
theorem import_csv_row_handling_witness :
    (import_csv (fun _ => "u") ⟨[], []⟩
        [[("Date", "garbage"), ("Description", "x"), ("Montant", "5")],
         [("Date", "2024-01-02"), ("Description", "y"), ("Montant", "5")]]).2 = 1 ∧
    ((import_csv (fun _ => "u") ⟨[], []⟩
        [[("Date", "garbage"), ("Description", "x"), ("Montant", "5")],
         [("Date", "2024-01-02"), ("Description", "y"), ("Montant", "5")]]).1).transactions.length
      = 0 + 1 ∧
    csvType [("Date", "2024-01-02"), ("Montant", "5")] 5 = "expense" ∧
    csvType [("Date", "2024-01-02"), ("Montant", "5"), ("Type", "Crédit")] 5 =
      (if (0 : ℚ) ≤ 5 then "income" else "expense") ∧
    csvType [("Date", "2024-01-02"), ("Montant", "5"), ("Type", "Income")] 5 =
      pyLower "Income" := by
  have h := import_csv_row_handling
  have h1 := h.1 (fun _ => "u") ⟨[], []⟩
    [[("Date", "garbage"), ("Description", "x"), ("Montant", "5")],
     [("Date", "2024-01-02"), ("Description", "y"), ("Montant", "5")]]
  refine ⟨?_, ?_, ?_, ?_, ?_⟩
  · rw [h1.1]
    decide
  · rw [h1.2, h1.1]
    decide
  · exact h.2.1 _ 5 (by decide) (by decide)
  · exact h.2.2.1 _ 5 "Crédit" (by decide) (by decide)
  · exact h.2.2.2 _ 5 "Income" (by decide) (by decide)

/-- C8 counterexample: a row with positive amount and *no* type column
is imported as an `"expense"` — the claim requires the sign default
(`income` for `amount ≥ 0`) to apply to missing columns as well. -/
theorem import_csv_missing_type_counterexample :
    ((import_csv (fun _ => "u") ⟨[], []⟩
        [[("Date", "2024-01-02"), ("Description", "x"), ("Montant", "5")]]).1).transactions.map
      Transaction.type = ["expense"] ∧ ("expense" : String) ≠ "income" :=
  ⟨by decide, by decide⟩

/-! ### Claim C9: CSV export/import round-trip acceptance -/

theorem digitChar_mod (n : ℕ) : digitChar (n % 10) = digitChar n := by
  unfold digitChar
  congr 1
  omega

theorem natToDigitsAux_base {fuel n : ℕ} (hf : 0 < fuel) (h : n < 10) :
    natToDigitsAux fuel n = [digitChar n] := by
  cases fuel with
  | zero => omega
  | succ f => simp [natToDigitsAux, h]

theorem natToDigitsAux_step {fuel n : ℕ} (hf : 0 < fuel) (h : ¬ n < 10) :
    natToDigitsAux fuel n = natToDigitsAux (fuel - 1) (n / 10) ++ [digitChar n] := by
  cases fuel with
  | zero => omega
  | succ f => simp [natToDigitsAux, h, digitChar_mod]

theorem natToDigits_four {y : ℕ} (h1 : 1000 ≤ y) (h2 : y ≤ 9999) :
    natToDigits y = pad4 y := by
  have ha : y / 10 / 10 = y / 100 := by omega
  have hb : y / 100 / 10 = y / 1000 := by omega
  unfold natToDigits pad4
  rw [natToDigitsAux_step (by omega) (by omega), Nat.add_sub_cancel,
    natToDigitsAux_step (by omega) (by omega), ha,
    natToDigitsAux_step (by omega) (by omega), hb,
    natToDigitsAux_base (by omega) (by omega)]
  simp

theorem natToDigitsAux_not_ws :
    ∀ (fuel n : ℕ), ∀ c ∈ natToDigitsAux fuel n, c.isWhitespace = false := by
  intro fuel
  induction fuel with
  | zero => intro n c hc; simp [natToDigitsAux] at hc
  | succ f ih =>
      intro n c hc
      by_cases h : n < 10
      · simp only [natToDigitsAux, h, if_true, List.mem_singleton] at hc
        subst hc
        exact digitChar_not_ws n
      · simp only [natToDigitsAux, h, if_false] at hc
        rcases List.mem_append.mp hc with h2 | h2
        · exact ih _ c h2
        · rcases List.mem_singleton.mp h2 with rfl
          exact digitChar_not_ws _

theorem natToDigitsAux_digits :
    ∀ (fuel n : ℕ), ∀ c ∈ natToDigitsAux fuel n, c.isDigit = true := by
  intro fuel
  induction fuel with
  | zero => intro n c hc; simp [natToDigitsAux] at hc
  | succ f ih =>
      intro n c hc
      by_cases h : n < 10
      · simp only [natToDigitsAux, h, if_true, List.mem_singleton] at hc
        subst hc
        exact digitChar_isDigit n
      · simp only [natToDigitsAux, h, if_false] at hc
        rcases List.mem_append.mp hc with h2 | h2
        · exact ih _ c h2
        · rcases List.mem_singleton.mp h2 with rfl
          exact digitChar_isDigit _

theorem natToDigits_digits {n : ℕ} : ∀ c ∈ natToDigits n, c.isDigit = true :=
  natToDigitsAux_digits (n + 1) n

theorem natToDigits_ne_nil (n : ℕ) : natToDigits n ≠ [] := by
  unfold natToDigits
  by_cases h : n < 10
  · rw [natToDigitsAux_base (by omega) h]
    simp
  · rw [natToDigitsAux_step (by omega) h]
    simp

theorem strftimeYmd_data (d : PDate) :
    (strftimeYmd d).data =
      natToDigits d.year ++ '-' :: (pad2 d.month ++ '-' :: pad2 d.day) := by
  show natToDigits d.year ++ '-' :: pad2 d.month ++ '-' :: pad2 d.day = _
  simp

theorem strftimeYmd_not_ws (d : PDate) :
    ∀ c ∈ (strftimeYmd d).data, c.isWhitespace = false := by
  intro c hc
  rw [strftimeYmd_data] at hc
  rcases List.mem_append.mp hc with h | h
  · exact natToDigitsAux_not_ws _ _ c h
  · simp only [pad2, List.cons_append, List.nil_append, List.mem_cons,
      List.not_mem_nil, or_false] at h
    rcases h with rfl | rfl | rfl | rfl | rfl | rfl <;>
      first
        | exact digitChar_not_ws _
        | decide

theorem parse_date_strftime {d : PDate} (h : d.Valid) (hy : 1000 ≤ d.year) :
    parse_date (strftimeYmd d) = .ok d := by
  have hok : dateOk d.year d.month d.day = true := h
  have hb := dateOk_bounds hok
  unfold parse_date
  rw [pyStrip_eq_self (strftimeYmd_not_ws d)]
  dsimp only
  rw [strftimeYmd_data, natToDigits_four hy hb.2.1, tryFmtYmd_iso h]
  rfl

theorem takeWhile_digits_append {l m : List Char} (h : ∀ c ∈ l, c.isDigit = true) :
    (l ++ m).takeWhile Char.isDigit = l ++ m.takeWhile Char.isDigit ∧
    (l ++ m).dropWhile Char.isDigit = m.dropWhile Char.isDigit := by
  induction l with
  | nil => simp
  | cons a t ih =>
      have ha := h a (List.mem_cons_self a t)
      have iht := ih fun c hc => h c (List.mem_cons_of_mem a hc)
      simp [List.takeWhile_cons, List.dropWhile_cons, ha, iht.1, iht.2]

theorem dropWhile_digits_nil {l : List Char} (h : ∀ c ∈ l, c.isDigit = true) :
    l.dropWhile Char.isDigit = [] ∧ l.takeWhile Char.isDigit = l := by
  induction l with
  | nil => simp
  | cons a t ih =>
      have ha := h a (List.mem_cons_self a t)
      have iht := ih fun c hc => h c (List.mem_cons_of_mem a hc)
      simp [List.takeWhile_cons, List.dropWhile_cons, ha, iht.1, iht.2]

theorem pyFloatCore_decimal {I F : List Char} (hI : I ≠ [])
    (hdI : ∀ c ∈ I, c.isDigit = true) (hdF : ∀ c ∈ F, c.isDigit = true) :
    (pyFloatCore (I ++ '.' :: F)).isSome = true := by
  have hdot : ('.' :: F).takeWhile Char.isDigit = [] ∧
      ('.' :: F).dropWhile Char.isDigit = '.' :: F := by
    simp [List.takeWhile_cons, List.dropWhile_cons]
  have h1 := takeWhile_digits_append (m := '.' :: F) hdI
  have hF := dropWhile_digits_nil hdF
  unfold pyFloatCore
  try dsimp only
  rw [h1.2, hdot.2]
  try dsimp only
  rw [if_pos rfl]
  rw [hF.1, hF.2, h1.1, hdot.1, List.append_nil]
  rw [if_neg (by simp [hI])]
  simp [parseExp]

theorem replicate_zero_digits {pad : ℕ} : ∀ c ∈ List.replicate pad '0', c.isDigit = true := by
  intro c hc
  rw [List.eq_of_mem_replicate hc]
  decide

theorem digit_not_ws {c : Char} (h : c.isDigit = true) : c.isWhitespace = false := by
  have h2 : ('0' : Char) ≤ c ∧ c ≤ ('9' : Char) := by
    simpa [Char.isDigit, Bool.and_eq_true] using h
  have hb : 48 ≤ c.toNat ∧ c.toNat ≤ 57 := ⟨h2.1, h2.2⟩
  have hc : c = digitChar (c.toNat - 48) := by
    apply char_toNat_inj
    rw [digitChar_toNat]
    omega
  rw [hc]
  exact digitChar_not_ws _

theorem pyFloat_render {sign : List Char} (hs : sign = [] ∨ sign = ['-'])
    (ip fr pad : ℕ) :
    (pyFloat (String.mk (sign ++ (natToDigits ip ++ '.' ::
      (List.replicate pad '0' ++ natToDigits fr))))).isSome = true := by
  have hdF : ∀ c ∈ List.replicate pad '0' ++ natToDigits fr, c.isDigit = true := by
    intro c hc
    rcases List.mem_append.mp hc with h | h
    · exact replicate_zero_digits c h
    · exact natToDigits_digits c h
  have hdI : ∀ c ∈ natToDigits ip, c.isDigit = true := natToDigits_digits
  have hnws : ∀ c ∈ (sign ++ (natToDigits ip ++ '.' ::
      (List.replicate pad '0' ++ natToDigits fr))), c.isWhitespace = false := by
    intro c hc
    rcases List.mem_append.mp hc with h | h
    · rcases hs with rfl | rfl
      · simp at h
      · rcases List.mem_singleton.mp h with rfl
        decide
    · rcases List.mem_append.mp h with h2 | h2
      · exact natToDigitsAux_not_ws _ _ c h2
      · rcases List.mem_cons.mp h2 with rfl | h3
        · decide
        · exact digit_not_ws (hdF c h3)
  unfold pyFloat
  rw [pyStrip_eq_self hnws]
  rcases hs with rfl | rfl
  · rw [List.nil_append]
    obtain ⟨c0, rest, hct⟩ := List.exists_cons_of_ne_nil (natToDigits_ne_nil ip)
    have hc0 : c0.isDigit = true := hdI c0 (by rw [hct]; exact List.mem_cons_self _ _)
    have hn1 : ¬ (c0 = '+') := by
      intro e
      rw [e] at hc0
      exact absurd hc0 (by decide)
    have hn2 : ¬ (c0 = '-') := by
      intro e
      rw [e] at hc0
      exact absurd hc0 (by decide)
    rw [hct, List.cons_append]
    dsimp only
    rw [if_neg hn1, if_neg hn2, ← List.cons_append, ← hct]
    exact pyFloatCore_decimal (natToDigits_ne_nil ip) hdI hdF
  · rw [List.singleton_append]
    dsimp only
    rw [if_neg (by decide), if_pos rfl]
    obtain ⟨v, hv⟩ := Option.isSome_iff_exists.mp
      (pyFloatCore_decimal (natToDigits_ne_nil ip) hdI hdF)
    rw [hv]
    rfl

theorem pyFloat_floatRepr_isSome (q : ℚ) : (pyFloat (floatRepr q)).isSome = true := by
  unfold floatRepr
  dsimp only
  split
  · exact pyFloat_render (Or.inr rfl) _ _ _
  · exact pyFloat_render (Or.inl rfl) _ _ _

theorem parseCsvRow_exportRow {t : Transaction} (hv : t.date.Valid)
    (hy : 1000 ≤ t.date.year) : (parseCsvRow (exportRow t)).isSome = true := by
  have hpd := parse_date_strftime hv hy
  obtain ⟨a, ha⟩ := Option.isSome_iff_exists.mp
    (pyFloat_floatRepr_isSome (Transaction.signed_amount t))
  unfold parseCsvRow exportRow
  simp [rowGet2, rowGet, rowAmount, hpd, ha, Except.toOption]

theorem export_rows_all_parse (s : Store)
    (h : ∀ t ∈ s.transactions, t.date.Valid ∧ 1000 ≤ t.date.year) :
    (export_csv s).filter (fun r => (parseCsvRow r).isSome) = export_csv s := by
  apply List.filter_eq_self.mpr
  intro r hr
  rcases List.mem_map.mp hr with ⟨t, ht, rfl⟩
  exact parseCsvRow_exportRow (h t ht).1 (h t ht).2

/-- C9 (amended): importing the records produced by `export_csv` into a
fresh empty store accepts every row — each exported row carries a
parseable date, a `float`-parseable signed amount and a recognized
type tag — and `import_csv` returns the number of exported
transactions, provided every transaction's date is a valid calendar
date with year at least 1000: glibc `strftime("%Y-...")` does not
zero-pad smaller years, and `parse_date` then rejects the exported text
(see the counterexample). -/
theorem export_import_count (ids : ℕ → String) (s : Store)
    (h : ∀ t ∈ s.transactions, t.date.Valid ∧ 1000 ≤ t.date.year) :
    (import_csv ids ⟨[], []⟩ (export_csv s)).2 = s.transactions.length := by
  rw [import_csv_count, export_rows_all_parse s h]
  simp [export_csv]

/-- Witness for C9 at a two-transaction store (one income, one expense
with a fractional amount). -/
theorem export_import_count_witness :
    (import_csv (fun _ => "u") ⟨[], []⟩ (export_csv
      ⟨[⟨"a", ⟨2024, 12, 1⟩, "Salaire", "Revenus", 3200, "income", ""⟩,
        ⟨"b", ⟨2024, 12, 5⟩, "Loyer", "Logement", 441 / 2, "expense", ""⟩], []⟩)).2 =
    (⟨[⟨"a", ⟨2024, 12, 1⟩, "Salaire", "Revenus", 3200, "income", ""⟩,
        ⟨"b", ⟨2024, 12, 5⟩, "Loyer", "Logement", 441 / 2, "expense", ""⟩], []⟩ : Store).transactions.length :=
  export_import_count (fun _ => "u") _ (by decide)

/-- C9 counterexample: a store containing the valid Python date
`date(5, 1, 1)` exports `"5-01-01"` (glibc `%Y` without padding), which
no `parse_date` format accepts, so the re-import count is 0, not 1. -/
theorem export_import_count_counterexample :
    (import_csv (fun _ => "u") ⟨[], []⟩ (export_csv
      ⟨[⟨"t", ⟨5, 1, 1⟩, "d", "c", 1, "expense", ""⟩], []⟩)).2 = 0 ∧
    (⟨[⟨"t", ⟨5, 1, 1⟩, "d", "c", 1, "expense", ""⟩], []⟩ : Store).transactions.length = 1 :=
  ⟨by decide, by decide⟩

end BudgetPy
